import Mathlib

/-!
# k8s-service-broadcasting: the multiplexing handler

A shallow embedding of `pkg/handler/handler.go` and `pkg/handler/util.go`.

* Byte strings (request and response bodies) are kept as `String`; a body
  field holds the bytes a reader over it has not consumed yet.
* Pointers become values: a function that mutates its argument returns the
  updated value next to its result.
* `net/url.Parse` and `http.Transport.RoundTrip` are library calls; they are
  taken as parameters (`Env`).
* The goroutines and the `select` of `ServeHTTP` become a `Schedule`: the
  permutation `rand.Perm` returned, the order in which the attempts deliver on
  `responseChannel`, the number of receives after which the `select` takes
  `ctx.Done()` (if at all), and the number `rand.Intn` is drawn from.
* The `http.ResponseWriter` is the list of `sendResponse` calls made on it.
-/

namespace Broadcast

/-- Header map of net/http: each key with its values. -/
abbrev Header := List (String × List String)

/-- Parsed `url.URL`, kept as the text its `String()` method renders. -/
structure URL where
  text : String
deriving DecidableEq, Repr

/-- The fields of `http.Request` the handler touches. `Body = none` is a nil
body, `some b` a reader with `b` still unread. -/
structure Request where
  Method : String
  URL : URL
  Proto : String
  ProtoMajor : Int
  ProtoMinor : Int
  Header : Header
  Body : Option String
  Host : String
  ContentLength : Int
  Close : Bool
deriving DecidableEq, Repr

/-- The fields of `http.Response` the handler touches. `Body` is what is still
unread of the body stream. -/
structure Response where
  Status : String
  StatusCode : Int
  Header : Header
  Body : String
  Request : Option Request
deriving DecidableEq, Repr

/-- What a backend sends back on a round trip: status line, status code,
header and body. -/
structure Answer where
  Status : String
  StatusCode : Int
  Header : Header
  Body : String
deriving DecidableEq, Repr

/-- The world outside the handler: the parser `url.Parse`, and what the round
trip of each attempt meets (attempts are numbered in dispatch order; two
attempts to one address may be answered differently). An error carries the
text `fmt.Sprint(err)` prints. -/
structure Env where
  urlParse : String → Except String URL
  backend : Nat → Request → Except String Answer

/-- The call `transport.RoundTrip(req)` of attempt `idx`: the answer of the
backend as an `http.Response`, whose `Request` the transport sets to the
request sent, or the transport error. -/
def RoundTrip (env : Env) (idx : Nat) (req : Request) : Except String Response :=
  match env.backend idx req with
  | .ok a =>
    .ok { Status := a.Status, StatusCode := a.StatusCode, Header := a.Header,
          Body := a.Body, Request := some req }
  | .error err => .error err

/-- One call of `sendResponse` as the `http.ResponseWriter` saw it: the header
entries set, the status given to `WriteHeader`, the bytes copied to it. -/
structure Written where
  StatusCode : Int
  Header : Header
  Body : String
deriving DecidableEq, Repr

/-- The `http.ResponseWriter`: the `sendResponse` calls made on it, in order. -/
abbrev ResponseWriter := List Written

/-- The struct `multiplexingHandler` (the mutex guards `targetAddresses`). -/
structure multiplexingHandler where
  ownAddress : String
  timeout : Int
  allMustSucceed : Bool
  keepalive : Bool
  targetAddresses : List String
deriving DecidableEq, Repr

/-- The constructor `NewMultiplexingHandler`. -/
def NewMultiplexingHandler (ownAddress : String) (timeout : Int)
    (allMustSucceed keepalive : Bool) : multiplexingHandler :=
  { ownAddress := ownAddress, timeout := timeout, allMustSucceed := allMustSucceed,
    keepalive := keepalive, targetAddresses := [] }

/-- The method `GetTargetAddresses`. -/
def GetTargetAddresses (h : multiplexingHandler) : List String :=
  h.targetAddresses

/-- The method `SetTargetAddresses`. -/
def SetTargetAddresses (h : multiplexingHandler) (addresses : List String) :
    multiplexingHandler :=
  { h with targetAddresses := addresses }

/-! ## util.go -/

/-- The function `setRequestTarget`: the request with its URL replaced, or the
error of `url.Parse`. -/
def setRequestTarget (env : Env) (request : Request) (target scheme : String) :
    Except String Request :=
  match env.urlParse (scheme ++ "://" ++ target ++ request.URL.text) with
  | .error err => .error err
  | .ok u => .ok { request with URL := u }

/-- The call `ioutil.ReadAll` on a body reader that has `reader` unread: the
bytes read, and what the reader has left afterwards (nothing). -/
def ReadAll (reader : String) : String × String :=
  (reader, "")

/-- The function `duplicateRequest`: the inbound request as the call leaves it
(its body read to the end at line 39, then replaced by a fresh buffer over the
bytes read at line 41), and the copy. -/
def duplicateRequest (request : Request) : Request × Request :=
  let read : String × Request :=
    match request.Body with
    | some reader => ((ReadAll reader).1, { request with Body := some (ReadAll reader).2 })
    | none => ("", request)
  let bodyBytes := read.1
  let request1 := { read.2 with Body := some bodyBytes }
  (request1,
   { Method := request1.Method
     URL := request1.URL
     Proto := request1.Proto
     ProtoMajor := request1.ProtoMajor
     ProtoMinor := request1.ProtoMinor
     Header := request1.Header
     Body := some bodyBytes
     Host := request1.Host
     ContentLength := request1.ContentLength
     Close := true })

/-- The zero `http.Request` around a zero `url.URL`, as `newResponse` builds. -/
def zeroRequest : Request :=
  { Method := "", URL := ⟨""⟩, Proto := "", ProtoMajor := 0, ProtoMinor := 0,
    Header := [], Body := none, Host := "", ContentLength := 0, Close := false }

/-- The function `newResponse`. -/
def newResponse (status : Int) (message : String) : Response :=
  { Status := "", StatusCode := status, Header := [], Body := message,
    Request := some zeroRequest }

/-- The function `randomResponse`; `rnd % n` is the value of `rand.Intn(n)`,
`none` is the nil pointer. -/
def randomResponse (rnd : Nat) (responses : List Response) : Option Response :=
  if responses.length = 0 then none
  else responses[rnd % responses.length]?

/-- The function `sendResponse`: the writer after the call, and the response
with its body consumed by `io.Copy`. -/
def sendResponse (w : ResponseWriter) (resp : Response) : ResponseWriter × Response :=
  (w ++ [{ StatusCode := resp.StatusCode, Header := resp.Header, Body := resp.Body }],
   { resp with Body := "" })

/-! ## handler.go -/

/-- The method `handleRequest` for attempt number `idx`. -/
def handleRequest (_h : multiplexingHandler) (env : Env) (idx : Nat) (req : Request) :
    Response :=
  match RoundTrip env idx req with
  | .ok resp => resp
  | .error err =>
    { Request := some req, StatusCode := 500, Status := err, Header := [], Body := err }

/-- The method `decideFinalResponse`. -/
def decideFinalResponse (h : multiplexingHandler) (rnd : Nat) (totalCount : Int)
    (successfulResponses failedResponses : List Response) : Option Response :=
  let failedCount : Int := failedResponses.length
  let succeededCount : Int := successfulResponses.length
  if failedCount = 0 ∧ succeededCount = 0 then
    some (newResponse 503 "no endpoints to query")
  else if succeededCount ≥ totalCount then
    randomResponse rnd successfulResponses
  else if failedCount = totalCount then
    randomResponse rnd failedResponses
  else if failedCount > 0 ∧ h.allMustSucceed = true then
    randomResponse rnd failedResponses
  else
    some (newResponse 503 "unknown error")

/-- The dispatch loop of `ServeHTTP` (lines 135-146) over the indices still to
visit: the inbound request as the duplications leave it and the requests
handed to a goroutine, in dispatch order. `none` is the run-time panic of
`targets[i]` on an index outside the slice. -/
def dispatchLoop (env : Env) (targets : List String) :
    List Nat → Request → List Request → Option (Request × List Request)
  | [], req, dispatched => some (req, dispatched)
  | i :: rest, req, dispatched =>
    let (req1, duplicate) := duplicateRequest req
    match targets[i]? with
    | none => none
    | some target =>
      match setRequestTarget env duplicate target "http" with
      | .error _ => dispatchLoop env targets rest req1 dispatched
      | .ok d => dispatchLoop env targets rest req1 (dispatched ++ [d])

/-- The responses the goroutines put on `responseChannel`, in dispatch order. -/
def attemptResponses (h : multiplexingHandler) (env : Env) (dispatched : List Request) :
    List Response :=
  dispatched.enum.map (fun p => handleRequest h env p.1 p.2)

/-- What one `select` of the main loop yields. -/
inductive Event where
  | ctxDone (deadlineExceeded : Bool)
  | recv (resp : Response)
  | closed
deriving DecidableEq, Repr

/-- The variables of `ServeHTTP` the main loop updates. -/
structure LoopState where
  w : ResponseWriter
  alreadySent : Bool
  requestCounter : Int
  successfulResponses : List Response
  failedResponses : List Response
deriving DecidableEq, Repr

/-- The case `resp, ok := <-responseChannel` with `ok` true (lines 176-192). -/
def recvStep (h : multiplexingHandler) (st : LoopState) (resp : Response) : LoopState :=
  let requestCounter := st.requestCounter + 1
  if resp.StatusCode ≥ 400 then
    -- buf.ReadFrom(resp.Body) consumes the body; errorMsg is only logged
    let resp1 := { resp with Body := "" }
    { st with requestCounter := requestCounter,
              failedResponses := st.failedResponses ++ [resp1] }
  else
    if (!h.allMustSucceed && !st.alreadySent) = true then
      let sent := sendResponse st.w resp
      { st with requestCounter := requestCounter,
                successfulResponses := st.successfulResponses ++ [sent.2],
                w := sent.1, alreadySent := true }
    else
      { st with requestCounter := requestCounter,
                successfulResponses := st.successfulResponses ++ [resp] }

/-- The response of the timeout branch (lines 165-168). -/
def timeoutResponse : Response :=
  { Status := "", StatusCode := 504, Header := [], Body := "request timed out",
    Request := none }

/-- How the main loop is left: by the `return` of the timeout branch, by
`break mainLoop`, or by the nil dereference of `resp.Request.URL` in the log
lines 183 and 186. -/
inductive LoopExit where
  | returned (w : ResponseWriter)
  | broke (st : LoopState)
  | panicked (w : ResponseWriter)
deriving DecidableEq, Repr

/-- The loop `mainLoop` (lines 156-194) over the events its `select` yields;
`none` when the events end with the loop still waiting. -/
def mainLoop (h : multiplexingHandler) : List Event → LoopState → Option LoopExit
  | [], _ => none
  | .ctxDone false :: evs, st => mainLoop h evs st
  | .ctxDone true :: _, st => some (.returned (sendResponse st.w timeoutResponse).1)
  | .closed :: _, st => some (.broke st)
  | .recv resp :: evs, st =>
    match resp.Request with
    | none => some (.panicked st.w)
    | some _ => mainLoop h evs (recvStep h st resp)

/-- The nondeterminism of one run of `ServeHTTP`. -/
structure Schedule where
  /-- the slice `rand.Perm(targetsCount)` returned -/
  perm : List Nat
  /-- the attempts (numbered in dispatch order) in the order they deliver -/
  completion : List Nat
  /-- `some k`: the `select` takes `ctx.Done()` after `k` receives;
  `none`: it sees the channel closed first -/
  deadline : Option Nat
  /-- the number `rand.Intn` is drawn from -/
  rnd : Nat
deriving DecidableEq, Repr

/-- The responses in the order the main loop receives them. -/
def completed (sched : Schedule) (responses : List Response) : List Response :=
  sched.completion.filterMap (fun j => responses[j]?)

/-- The events of the main loop under a schedule. -/
def eventsOf (sched : Schedule) (responses : List Response) : List Event :=
  match sched.deadline with
  | none => (completed sched responses).map Event.recv ++ [Event.closed]
  | some k => ((completed sched responses).take k).map Event.recv ++ [Event.ctxDone true]

/-- How a run of `ServeHTTP` ends. -/
inductive Outcome where
  | returned (w : ResponseWriter)
  | panicked (w : ResponseWriter)
  | blocked
deriving DecidableEq, Repr

/-- The state the main loop starts in. -/
def initState (w : ResponseWriter) : LoopState :=
  { w := w, alreadySent := false, requestCounter := 0,
    successfulResponses := [], failedResponses := [] }

/-- Lines 196-205 of `ServeHTTP`: the final decision, the log line that reads
`finalResponse.StatusCode` and `finalResponse.Request.URL` (a panic on a nil
pointer), and the write. -/
def finish (h : multiplexingHandler) (rnd : Nat) (st : LoopState) : Outcome :=
  match decideFinalResponse h rnd st.requestCounter st.successfulResponses
      st.failedResponses with
  | none => .panicked st.w
  | some finalResponse =>
    match finalResponse.Request with
    | none => .panicked st.w
    | some _ =>
      if st.alreadySent = true then .returned st.w
      else .returned (sendResponse st.w finalResponse).1

/-- The method `ServeHTTP`. -/
def ServeHTTP (h : multiplexingHandler) (env : Env) (sched : Schedule)
    (w : ResponseWriter) (req : Request) : Outcome :=
  let targets := GetTargetAddresses h
  match dispatchLoop env targets sched.perm req [] with
  | none => .panicked w
  | some (_, dispatched) =>
    match mainLoop h (eventsOf sched (attemptResponses h env dispatched)) (initState w) with
    | none => .blocked
    | some (.returned w1) => .returned w1
    | some (.panicked w1) => .panicked w1
    | some (.broke st) => finish h sched.rnd st

/-! ## Vocabulary of the statements -/

/-- What `sendResponse` writes for a response whose body is still unread: its
status, header and full body. -/
def written (r : Response) : Written :=
  { StatusCode := r.StatusCode, Header := r.Header, Body := r.Body }

/-- A response after `buf.ReadFrom(resp.Body)` consumed its body. -/
def drained (r : Response) : Response :=
  { r with Body := "" }

/-- The classification of line 177: status at least 400. -/
def isFailed (r : Response) : Bool :=
  decide (r.StatusCode ≥ 400)

/-- The state of the main loop after it received the given responses. -/
def afterRecvs (h : multiplexingHandler) (st : LoopState) (rs : List Response) : LoopState :=
  rs.foldl (recvStep h) st

/-- The requests `ServeHTTP` hands to a goroutine, in dispatch order. -/
def dispatchedOf (h : multiplexingHandler) (env : Env) (sched : Schedule) (req : Request) :
    List Request :=
  match dispatchLoop env (GetTargetAddresses h) sched.perm req [] with
  | some (_, dispatched) => dispatched
  | none => []

/-- The responses of the attempts of a run, in dispatch order. -/
def responsesOf (h : multiplexingHandler) (env : Env) (sched : Schedule) (req : Request) :
    List Response :=
  attemptResponses h env (dispatchedOf h env sched req)

/-- The responses of a run in the order the main loop receives them (all of
them when no deadline cuts the loop short). -/
def completedOf (h : multiplexingHandler) (env : Env) (sched : Schedule) (req : Request) :
    List Response :=
  completed sched (responsesOf h env sched req)

/-- The copy `ServeHTTP` builds for a target (`duplicateRequest` followed by
`setRequestTarget` with scheme http), when the rewrite succeeds. -/
def rewriteOf (env : Env) (req : Request) (target : String) : Option Request :=
  match setRequestTarget env (duplicateRequest req).2 target "http" with
  | .ok d => some d
  | .error _ => none

/-! ## The final-decision rules as the specification words them -/

/-- The outcomes the five final-decision rules name. -/
inductive Rule where
  | noEndpoints
  | pickSuccessful
  | pickFailed
  | unknownError
deriving DecidableEq, Repr

/-- The five final-decision rules of the specification, applied in order to
`total`, `succeeded` and `failed`. -/
def finalDecisionRule (allMustSucceed : Bool) (total succeeded failed : Int) : Rule :=
  if total = 0 then .noEndpoints
  else if succeeded ≥ total then .pickSuccessful
  else if failed = total then .pickFailed
  else if failed > 0 ∧ allMustSucceed = true then .pickFailed
  else .unknownError

/-- What a rule prescribes for the response returned: a synthesized 503 with
the rule's message, or a member of the list the rule picks from. -/
def Prescribes (rule : Rule) (successfulResponses failedResponses : List Response)
    (result : Option Response) : Prop :=
  match rule with
  | .noEndpoints => result = some (newResponse 503 "no endpoints to query")
  | .pickSuccessful => ∃ r ∈ successfulResponses, result = some r
  | .pickFailed => ∃ r ∈ failedResponses, result = some r
  | .unknownError => result = some (newResponse 503 "unknown error")

/-! ## Concrete runs -/

/-- The request of the repository test: GET / without a body. -/
def getRequest : Request :=
  { Method := "GET", URL := ⟨"/"⟩, Proto := "HTTP/1.1", ProtoMajor := 1, ProtoMinor := 1,
    Header := [("Accept-Encoding", ["gzip"])], Body := none, Host := "broadcast:8080",
    ContentLength := 0, Close := false }

/-- The answer of the test server `okServer`. -/
def okAnswer : Answer :=
  { Status := "200 OK", StatusCode := 200, Header := [("Content-Length", ["7"])],
    Body := "OK 200\n" }

/-- The answer of the test server `errServer`. -/
def errAnswer : Answer :=
  { Status := "503 Service Unavailable", StatusCode := 503,
    Header := [("Content-Length", ["5"])], Body := "fail\n" }

/-- The response the transport makes of `okAnswer` for a request. -/
def okResponse (q : Request) : Response :=
  { Status := okAnswer.Status, StatusCode := okAnswer.StatusCode, Header := okAnswer.Header,
    Body := okAnswer.Body, Request := some q }

/-- The response the transport makes of `errAnswer` for a request. -/
def errResponse (q : Request) : Response :=
  { Status := errAnswer.Status, StatusCode := errAnswer.StatusCode,
    Header := errAnswer.Header, Body := errAnswer.Body, Request := some q }

/-- The parser of the concrete runs: like `url.Parse` it rejects a blank in
the host, and it keeps any other text. -/
def parseNoBlank (s : String) : Except String URL :=
  if s.toList.contains ' ' then .error "invalid character in host name"
  else .ok ⟨s⟩

/-- An environment in which every backend answers like `okServer`. -/
def envAllOk : Env :=
  { urlParse := parseNoBlank, backend := fun _ _ => .ok okAnswer }

/-- An environment in which every backend answers like `errServer`. -/
def envAllErr : Env :=
  { urlParse := parseNoBlank, backend := fun _ _ => .ok errAnswer }

/-- An environment in which the backend at `ok:80` answers like `okServer` and
every other one like `errServer`. -/
def envMixed : Env :=
  { urlParse := parseNoBlank
    backend := fun _ q =>
      if q.URL.text = "http://ok:80/" then .ok okAnswer else .ok errAnswer }

/-- The handler the test builds for a policy, a timeout and a target list. -/
def handlerFor (allMustSucceed : Bool) (timeout : Int) (targets : List String) :
    multiplexingHandler :=
  SetTargetAddresses (NewMultiplexingHandler "" timeout allMustSucceed false) targets

/-- A request with a body: POST /push?x=1 carrying "payload". -/
def postRequest : Request :=
  { Method := "POST", URL := ⟨"/push?x=1"⟩, Proto := "HTTP/1.1", ProtoMajor := 1,
    ProtoMinor := 1, Header := [("Content-Type", ["text/plain"])], Body := some "payload",
    Host := "broadcast:8080", ContentLength := 7, Close := false }

/-- An environment in which every round trip fails in the transport. -/
def envRefused : Env :=
  { urlParse := parseNoBlank
    backend := fun _ _ => .error "dial tcp 10.0.0.1:80: connect: connection refused" }

/-- The copy of `postRequest` the handler sends to a destination. -/
def postRequestTo (destination : String) : Request :=
  { Method := "POST", URL := ⟨destination⟩, Proto := "HTTP/1.1", ProtoMajor := 1,
    ProtoMinor := 1, Header := [("Content-Type", ["text/plain"])], Body := some "payload",
    Host := "broadcast:8080", ContentLength := 7, Close := true }

theorem mainLoop_recvs (h : multiplexingHandler) (rs : List Response) (tail : List Event)
    (st : LoopState) (hreq : ∀ r ∈ rs, r.Request.isSome = true) :
    mainLoop h (rs.map Event.recv ++ tail) st = mainLoop h tail (afterRecvs h st rs) := by
  induction rs generalizing st with
  | nil => rfl
  | cons r rs ih =>
    have hr : r.Request.isSome = true := hreq r (List.mem_cons_self _ _)
    obtain ⟨q, hq⟩ := Option.isSome_iff_exists.mp hr
    simp only [List.map_cons, List.cons_append, mainLoop, afterRecvs, List.foldl_cons, hq]
    exact ih (recvStep h st r) (fun x hx => hreq x (List.mem_cons_of_mem _ hx))

theorem afterRecvs_nil (h : multiplexingHandler) (st : LoopState) :
    afterRecvs h st [] = st := rfl

theorem afterRecvs_cons (h : multiplexingHandler) (st : LoopState) (r : Response)
    (rs : List Response) :
    afterRecvs h st (r :: rs) = afterRecvs h (recvStep h st r) rs := rfl

theorem recvStep_counter (h : multiplexingHandler) (st : LoopState) (r : Response) :
    (recvStep h st r).requestCounter = st.requestCounter + 1 := by
  unfold recvStep
  split
  · rfl
  · split <;> rfl

theorem afterRecvs_counter (h : multiplexingHandler) (st : LoopState) (rs : List Response) :
    (afterRecvs h st rs).requestCounter = st.requestCounter + rs.length := by
  induction rs generalizing st with
  | nil => simp [afterRecvs_nil]
  | cons r rs ih =>
    rw [afterRecvs_cons, ih, recvStep_counter]
    simp only [List.length_cons]
    push_cast
    ring

theorem recvStep_lengths (h : multiplexingHandler) (st : LoopState) (r : Response) :
    (recvStep h st r).successfulResponses.length + (recvStep h st r).failedResponses.length
      = st.successfulResponses.length + st.failedResponses.length + 1 := by
  unfold recvStep
  split
  · simp only [List.length_append, List.length_singleton]; omega
  · split <;> simp only [List.length_append, List.length_singleton] <;> omega

theorem afterRecvs_lengths (h : multiplexingHandler) (st : LoopState) (rs : List Response) :
    (afterRecvs h st rs).successfulResponses.length
        + (afterRecvs h st rs).failedResponses.length
      = st.successfulResponses.length + st.failedResponses.length + rs.length := by
  induction rs generalizing st with
  | nil => simp [afterRecvs_nil]
  | cons r rs ih =>
    rw [afterRecvs_cons, ih, recvStep_lengths]
    simp only [List.length_cons]
    omega

theorem afterRecvs_failed (h : multiplexingHandler) (st : LoopState) (rs : List Response) :
    (afterRecvs h st rs).failedResponses
      = st.failedResponses ++ (rs.filter isFailed).map drained := by
  induction rs generalizing st with
  | nil => simp [afterRecvs_nil]
  | cons r rs ih =>
    rw [afterRecvs_cons, ih]
    by_cases hr : r.StatusCode ≥ 400
    · have h1 : (recvStep h st r).failedResponses = st.failedResponses ++ [drained r] := by
        unfold recvStep; rw [if_pos hr]; rfl
      have h2 : isFailed r = true := by simp [isFailed, hr]
      rw [h1, List.filter_cons_of_pos h2]
      simp
    · have h1 : (recvStep h st r).failedResponses = st.failedResponses := by
        unfold recvStep; rw [if_neg hr]; split <;> rfl
      have h2 : ¬ (isFailed r = true) := by simp [isFailed, hr]
      rw [h1, List.filter_cons_of_neg h2]

theorem afterRecvs_succeeded_length (h : multiplexingHandler) (st : LoopState)
    (rs : List Response) :
    (afterRecvs h st rs).successfulResponses.length
      = st.successfulResponses.length + (rs.filter (fun r => !isFailed r)).length := by
  induction rs generalizing st with
  | nil => simp [afterRecvs_nil]
  | cons r rs ih =>
    rw [afterRecvs_cons, ih]
    by_cases hr : r.StatusCode ≥ 400
    · have h1 : (recvStep h st r).successfulResponses = st.successfulResponses := by
        unfold recvStep; rw [if_pos hr]
      have h2 : isFailed r = true := by simp [isFailed, hr]
      rw [h1]
      simp [List.filter_cons, h2]
    · have h1 : (recvStep h st r).successfulResponses.length
          = st.successfulResponses.length + 1 := by
        unfold recvStep; rw [if_neg hr]; split <;> simp
      have h2 : isFailed r = false := by simp [isFailed, hr]
      rw [h1]
      simp [List.filter_cons, h2]
      omega

theorem afterRecvs_allMustSucceed (h : multiplexingHandler) (hams : h.allMustSucceed = true)
    (st : LoopState) (rs : List Response) :
    (afterRecvs h st rs).w = st.w ∧ (afterRecvs h st rs).alreadySent = st.alreadySent ∧
      (afterRecvs h st rs).successfulResponses
        = st.successfulResponses ++ rs.filter (fun r => !isFailed r) := by
  induction rs generalizing st with
  | nil => simp [afterRecvs_nil]
  | cons r rs ih =>
    rw [afterRecvs_cons]
    obtain ⟨h1, h2, h3⟩ := ih (recvStep h st r)
    rw [h1, h2, h3]
    by_cases hr : r.StatusCode ≥ 400
    · have hf : isFailed r = true := by simp [isFailed, hr]
      have e : (recvStep h st r).w = st.w ∧ (recvStep h st r).alreadySent = st.alreadySent
          ∧ (recvStep h st r).successfulResponses = st.successfulResponses := by
        unfold recvStep; rw [if_pos hr]; exact ⟨rfl, rfl, rfl⟩
      rw [e.1, e.2.1, e.2.2]
      simp [List.filter_cons, hf]
    · have hf : isFailed r = false := by simp [isFailed, hr]
      have e : (recvStep h st r).w = st.w ∧ (recvStep h st r).alreadySent = st.alreadySent
          ∧ (recvStep h st r).successfulResponses = st.successfulResponses ++ [r] := by
        unfold recvStep; rw [if_neg hr]; simp [hams]
      rw [e.1, e.2.1, e.2.2]
      simp [List.filter_cons, hf]

theorem afterRecvs_alreadySent (h : multiplexingHandler) (st : LoopState)
    (hsent : st.alreadySent = true) (rs : List Response) :
    (afterRecvs h st rs).w = st.w ∧ (afterRecvs h st rs).alreadySent = true := by
  induction rs generalizing st with
  | nil => simp [afterRecvs_nil, hsent]
  | cons r rs ih =>
    rw [afterRecvs_cons]
    have e : (recvStep h st r).w = st.w ∧ (recvStep h st r).alreadySent = true := by
      unfold recvStep
      split
      · exact ⟨rfl, hsent⟩
      · simp [hsent]
    obtain ⟨h1, h2⟩ := ih (recvStep h st r) e.2
    exact ⟨h1.trans e.1, h2⟩

theorem afterRecvs_allFailed (h : multiplexingHandler) (st : LoopState) (rs : List Response)
    (hall : ∀ r ∈ rs, r.StatusCode ≥ 400) :
    (afterRecvs h st rs).w = st.w ∧ (afterRecvs h st rs).alreadySent = st.alreadySent := by
  induction rs generalizing st with
  | nil => simp [afterRecvs_nil]
  | cons r rs ih =>
    rw [afterRecvs_cons]
    have hr : r.StatusCode ≥ 400 := hall r (List.mem_cons_self _ _)
    have e : (recvStep h st r).w = st.w ∧ (recvStep h st r).alreadySent = st.alreadySent := by
      unfold recvStep; rw [if_pos hr]; exact ⟨rfl, rfl⟩
    obtain ⟨h1, h2⟩ := ih (recvStep h st r) (fun x hx => hall x (List.mem_cons_of_mem _ hx))
    exact ⟨h1.trans e.1, h2.trans e.2⟩

/-- Under the policy that tolerates failures, the first response below 400 is
forwarded at once and nothing else is written by the loop. -/
theorem afterRecvs_earlyForward (h : multiplexingHandler) (hams : h.allMustSucceed = false)
    (st : LoopState) (hsent : st.alreadySent = false) (rs : List Response) (r : Response)
    (hfind : rs.find? (fun x => decide (x.StatusCode < 400)) = some r) :
    (afterRecvs h st rs).w = st.w ++ [written r] ∧ (afterRecvs h st rs).alreadySent = true := by
  induction rs generalizing st with
  | nil => simp at hfind
  | cons x rs ih =>
    rw [afterRecvs_cons]
    by_cases hx : x.StatusCode ≥ 400
    · have hnot : ¬ (x.StatusCode < 400) := by omega
      have e : (recvStep h st x).w = st.w ∧ (recvStep h st x).alreadySent = false := by
        unfold recvStep; rw [if_pos hx]; exact ⟨rfl, hsent⟩
      have hfind1 : rs.find? (fun x => decide (x.StatusCode < 400)) = some r := by
        simpa [List.find?_cons, hnot] using hfind
      obtain ⟨h1, h2⟩ := ih (recvStep h st x) e.2 hfind1
      rw [h1, e.1]
      exact ⟨rfl, h2⟩
    · have hlt : x.StatusCode < 400 := by omega
      have hxr : x = r := by simpa [List.find?_cons, hlt] using hfind
      subst hxr
      have e : (recvStep h st x).w = st.w ++ [written x]
          ∧ (recvStep h st x).alreadySent = true := by
        unfold recvStep; rw [if_neg hx]; simp [hams, hsent, sendResponse, written]
      obtain ⟨h1, h2⟩ := afterRecvs_alreadySent h (recvStep h st x) e.2 rs
      rw [h1, e.1]
      exact ⟨rfl, h2⟩

/-! ## The final decision -/

theorem randomResponse_mem (rnd : Nat) (responses : List Response) (hne : responses ≠ []) :
    ∃ r ∈ responses, randomResponse rnd responses = some r := by
  have hlen : 0 < responses.length := List.length_pos.mpr hne
  have hlt : rnd % responses.length < responses.length := Nat.mod_lt _ hlen
  refine ⟨responses[rnd % responses.length], List.getElem_mem _, ?_⟩
  unfold randomResponse
  rw [if_neg (by omega)]
  exact List.getElem?_eq_getElem hlt

theorem randomResponse_nil (rnd : Nat) : randomResponse rnd [] = none := rfl

/-- With the counter equal to the number of collected responses the final
decision is never the nil pointer. -/
theorem decideFinalResponse_isSome (h : multiplexingHandler) (rnd : Nat) (totalCount : Int)
    (succ failed : List Response)
    (hinv : totalCount = (succ.length : Int) + (failed.length : Int)) :
    ∃ r, decideFinalResponse h rnd totalCount succ failed = some r := by
  unfold decideFinalResponse
  simp only
  split
  · exact ⟨_, rfl⟩
  · rename_i h0
    split
    · rename_i h1
      have hs : succ ≠ [] := by
        intro hnil
        subst hnil
        simp only [List.length_nil, Nat.cast_zero, and_true, true_and] at h0 h1 hinv
        omega
      obtain ⟨r, _, hr⟩ := randomResponse_mem rnd succ hs
      exact ⟨r, hr⟩
    · rename_i h1
      have hf : failed ≠ [] := by
        intro hnil
        subst hnil
        simp only [List.length_nil, Nat.cast_zero, and_true, true_and] at h0 h1 hinv
        omega
      obtain ⟨r, _, hr⟩ := randomResponse_mem rnd failed hf
      split
      · exact ⟨r, hr⟩
      · split
        · exact ⟨r, hr⟩
        · exact ⟨_, rfl⟩

/-! ## The dispatch loop -/

theorem duplicateRequest_idem (q : Request) :
    duplicateRequest (duplicateRequest q).1 = duplicateRequest q := by
  obtain ⟨m, u, p, p1, p2, hd, body, host, cl, c⟩ := q
  cases body <;> rfl

theorem rewriteOf_duplicate (env : Env) (q : Request) (t : String) :
    rewriteOf env (duplicateRequest q).1 t = rewriteOf env q t := by
  unfold rewriteOf
  rw [duplicateRequest_idem]

theorem filterMap_getElem?_range {α : Type} (l : List α) :
    (List.range l.length).filterMap (fun i => l[i]?) = l := by
  induction l using List.reverseRecOn with
  | nil => rfl
  | append_singleton l a ih =>
    have h1 : List.filterMap (fun i => (l ++ [a])[i]?) (List.range l.length)
        = List.filterMap (fun i => l[i]?) (List.range l.length) :=
      List.filterMap_congr (fun i hi => by
        rw [List.getElem?_append_left (List.mem_range.mp hi)])
    rw [List.length_append, List.length_singleton, List.range_succ, List.filterMap_append,
      h1, ih]
    simp

/-- The dispatch loop in closed form: it visits the entries in the order of
the indices and keeps the copies whose rewrite succeeded. -/
theorem dispatchLoop_eq (env : Env) (targets : List String) (perm : List Nat) (q : Request)
    (acc : List Request) (hperm : ∀ i ∈ perm, i < targets.length) :
    dispatchLoop env targets perm q acc
      = some (if perm = [] then q else (duplicateRequest q).1,
          acc ++ (perm.filterMap (fun i => targets[i]?)).filterMap (rewriteOf env q)) := by
  induction perm generalizing q acc with
  | nil => simp [dispatchLoop]
  | cons i rest ih =>
    have hi : i < targets.length := hperm i (List.mem_cons_self _ _)
    have hrest : ∀ j ∈ rest, j < targets.length :=
      fun j hj => hperm j (List.mem_cons_of_mem _ hj)
    have hget : targets[i]? = some targets[i] := List.getElem?_eq_getElem hi
    have hq1 : (if rest = [] then (duplicateRequest q).1
        else (duplicateRequest (duplicateRequest q).1).1) = (duplicateRequest q).1 := by
      split
      · rfl
      · rw [duplicateRequest_idem]
    have hfun : rewriteOf env (duplicateRequest q).1 = rewriteOf env q :=
      funext (rewriteOf_duplicate env q)
    simp only [dispatchLoop, hget, List.filterMap_cons, if_neg (List.cons_ne_nil i rest)]
    cases hset : setRequestTarget env (duplicateRequest q).2 targets[i] "http" with
    | error e =>
      have hrw : rewriteOf env q targets[i] = none := by simp [rewriteOf, hset]
      simp only [hrw]
      rw [ih (duplicateRequest q).1 acc hrest, hq1, hfun]
    | ok d =>
      have hrw : rewriteOf env q targets[i] = some d := by simp [rewriteOf, hset]
      simp only [hrw]
      rw [ih (duplicateRequest q).1 (acc ++ [d]) hrest, hq1, hfun]
      simp

theorem perm_lt (targets : List String) (perm : List Nat)
    (hperm : perm.Perm (List.range targets.length)) : ∀ i ∈ perm, i < targets.length :=
  fun _ hi => List.mem_range.mp (hperm.mem_iff.mp hi)

theorem dispatchedOf_eq (h : multiplexingHandler) (env : Env) (sched : Schedule)
    (req : Request) (hperm : ∀ i ∈ sched.perm, i < (GetTargetAddresses h).length) :
    dispatchedOf h env sched req
      = (sched.perm.filterMap (fun i => (GetTargetAddresses h)[i]?)).filterMap
          (rewriteOf env req) := by
  unfold dispatchedOf
  rw [dispatchLoop_eq env _ _ req [] hperm]
  simp

theorem dispatchedOf_perm (h : multiplexingHandler) (env : Env) (sched : Schedule)
    (req : Request) (hperm : sched.perm.Perm (List.range (GetTargetAddresses h).length)) :
    (dispatchedOf h env sched req).Perm
      ((GetTargetAddresses h).filterMap (rewriteOf env req)) := by
  rw [dispatchedOf_eq h env sched req (perm_lt _ _ hperm)]
  have h1 := (hperm.filterMap (fun i => (GetTargetAddresses h)[i]?)).filterMap
    (rewriteOf env req)
  rwa [filterMap_getElem?_range] at h1

/-! ## Runs of the handler -/

theorem ServeHTTP_eq (h : multiplexingHandler) (env : Env) (sched : Schedule)
    (w : ResponseWriter) (req : Request)
    (hperm : ∀ i ∈ sched.perm, i < (GetTargetAddresses h).length) :
    ServeHTTP h env sched w req
      = match mainLoop h (eventsOf sched (responsesOf h env sched req)) (initState w) with
        | none => .blocked
        | some (.returned w1) => .returned w1
        | some (.panicked w1) => .panicked w1
        | some (.broke st) => finish h sched.rnd st := by
  unfold ServeHTTP responsesOf dispatchedOf
  simp only [dispatchLoop_eq env _ _ req [] hperm]

theorem handleRequest_request (h : multiplexingHandler) (env : Env) (idx : Nat)
    (q : Request) : (handleRequest h env idx q).Request = some q := by
  unfold handleRequest RoundTrip
  cases env.backend idx q <;> rfl

theorem attemptResponses_request (h : multiplexingHandler) (env : Env)
    (dispatched : List Request) :
    ∀ r ∈ attemptResponses h env dispatched, r.Request.isSome = true := by
  intro r hr
  unfold attemptResponses at hr
  rw [List.mem_map] at hr
  obtain ⟨p, _, hp⟩ := hr
  rw [← hp, handleRequest_request]
  rfl

theorem completed_subset (sched : Schedule) (responses : List Response) :
    ∀ r ∈ completed sched responses, r ∈ responses := by
  intro r hr
  unfold completed at hr
  rw [List.mem_filterMap] at hr
  obtain ⟨j, _, hj⟩ := hr
  exact List.getElem?_mem hj

theorem completedOf_request (h : multiplexingHandler) (env : Env) (sched : Schedule)
    (req : Request) : ∀ r ∈ completedOf h env sched req, r.Request.isSome = true :=
  fun r hr => attemptResponses_request h env _ r (completed_subset sched _ r hr)

theorem ServeHTTP_noDeadline (h : multiplexingHandler) (env : Env) (sched : Schedule)
    (w : ResponseWriter) (req : Request)
    (hperm : ∀ i ∈ sched.perm, i < (GetTargetAddresses h).length)
    (hdl : sched.deadline = none) :
    ServeHTTP h env sched w req
      = finish h sched.rnd (afterRecvs h (initState w) (completedOf h env sched req)) := by
  rw [ServeHTTP_eq h env sched w req hperm]
  unfold eventsOf
  simp only [hdl]
  have hreq : ∀ r ∈ completed sched (responsesOf h env sched req),
      r.Request.isSome = true := completedOf_request h env sched req
  rw [mainLoop_recvs h _ _ _ hreq]
  rfl

theorem ServeHTTP_deadline (h : multiplexingHandler) (env : Env) (sched : Schedule)
    (w : ResponseWriter) (req : Request)
    (hperm : ∀ i ∈ sched.perm, i < (GetTargetAddresses h).length)
    (k : Nat) (hdl : sched.deadline = some k) :
    ServeHTTP h env sched w req
      = .returned ((afterRecvs h (initState w) ((completedOf h env sched req).take k)).w
          ++ [written timeoutResponse]) := by
  rw [ServeHTTP_eq h env sched w req hperm]
  unfold eventsOf
  simp only [hdl]
  have hreq : ∀ r ∈ (completed sched (responsesOf h env sched req)).take k,
      r.Request.isSome = true :=
    fun r hr => completedOf_request h env sched req r (List.mem_of_mem_take hr)
  rw [mainLoop_recvs h _ _ _ hreq]
  rfl

theorem afterRecvs_init_counter (h : multiplexingHandler) (w : ResponseWriter)
    (rs : List Response) :
    (afterRecvs h (initState w) rs).requestCounter
      = ((afterRecvs h (initState w) rs).successfulResponses.length : Int)
        + ((afterRecvs h (initState w) rs).failedResponses.length : Int) := by
  have h1 : (afterRecvs h (initState w) rs).requestCounter = 0 + (rs.length : Int) :=
    afterRecvs_counter h (initState w) rs
  have h2 : (afterRecvs h (initState w) rs).successfulResponses.length
      + (afterRecvs h (initState w) rs).failedResponses.length = 0 + 0 + rs.length :=
    afterRecvs_lengths h (initState w) rs
  rw [h1]
  omega

theorem randomResponse_mem_of_eq (rnd : Nat) (responses : List Response) (r : Response)
    (hr : randomResponse rnd responses = some r) : r ∈ responses := by
  unfold randomResponse at hr
  split at hr
  · simp at hr
  · exact List.getElem?_mem hr

/-- The response decided on carries a request when all collected ones do. -/
theorem decideFinalResponse_request (h : multiplexingHandler) (rnd : Nat) (totalCount : Int)
    (succ failed : List Response) (r : Response)
    (hS : ∀ x ∈ succ, x.Request.isSome = true) (hF : ∀ x ∈ failed, x.Request.isSome = true)
    (hr : decideFinalResponse h rnd totalCount succ failed = some r) :
    r.Request.isSome = true := by
  unfold decideFinalResponse at hr
  simp only at hr
  split at hr
  · simp only [Option.some.injEq] at hr; rw [← hr]; rfl
  · split at hr
    · exact hS r (randomResponse_mem_of_eq rnd succ r hr)
    · split at hr
      · exact hF r (randomResponse_mem_of_eq rnd failed r hr)
      · split at hr
        · exact hF r (randomResponse_mem_of_eq rnd failed r hr)
        · simp only [Option.some.injEq] at hr; rw [← hr]; rfl

theorem recvStep_requests (h : multiplexingHandler) (st : LoopState) (r : Response)
    (hr : r.Request.isSome = true)
    (hS : ∀ x ∈ st.successfulResponses, x.Request.isSome = true)
    (hF : ∀ x ∈ st.failedResponses, x.Request.isSome = true) :
    (∀ x ∈ (recvStep h st r).successfulResponses, x.Request.isSome = true) ∧
      (∀ x ∈ (recvStep h st r).failedResponses, x.Request.isSome = true) := by
  unfold recvStep
  split
  · refine ⟨hS, ?_⟩
    intro x hx
    rcases List.mem_append.mp hx with hx | hx
    · exact hF x hx
    · rw [List.mem_singleton.mp hx]; exact hr
  · split
    · refine ⟨?_, hF⟩
      intro x hx
      rcases List.mem_append.mp hx with hx | hx
      · exact hS x hx
      · rw [List.mem_singleton.mp hx]; exact hr
    · refine ⟨?_, hF⟩
      intro x hx
      rcases List.mem_append.mp hx with hx | hx
      · exact hS x hx
      · rw [List.mem_singleton.mp hx]; exact hr

theorem afterRecvs_requests (h : multiplexingHandler) (st : LoopState) (rs : List Response)
    (hrs : ∀ r ∈ rs, r.Request.isSome = true)
    (hS : ∀ x ∈ st.successfulResponses, x.Request.isSome = true)
    (hF : ∀ x ∈ st.failedResponses, x.Request.isSome = true) :
    (∀ x ∈ (afterRecvs h st rs).successfulResponses, x.Request.isSome = true) ∧
      (∀ x ∈ (afterRecvs h st rs).failedResponses, x.Request.isSome = true) := by
  induction rs generalizing st with
  | nil => exact ⟨hS, hF⟩
  | cons r rs ih =>
    rw [afterRecvs_cons]
    obtain ⟨hS1, hF1⟩ := recvStep_requests h st r (hrs r (List.mem_cons_self _ _)) hS hF
    exact ih (recvStep h st r) (fun x hx => hrs x (List.mem_cons_of_mem _ hx)) hS1 hF1

theorem afterRecvs_init_requests (h : multiplexingHandler) (w : ResponseWriter)
    (rs : List Response) (hrs : ∀ r ∈ rs, r.Request.isSome = true) :
    (∀ x ∈ (afterRecvs h (initState w) rs).successfulResponses, x.Request.isSome = true) ∧
      (∀ x ∈ (afterRecvs h (initState w) rs).failedResponses, x.Request.isSome = true) :=
  afterRecvs_requests h (initState w) rs hrs (fun _ hx => by cases hx)
    (fun _ hx => by cases hx)

theorem finish_notSent (h : multiplexingHandler) (rnd : Nat) (st : LoopState) (r : Response)
    (hS : ∀ x ∈ st.successfulResponses, x.Request.isSome = true)
    (hF : ∀ x ∈ st.failedResponses, x.Request.isSome = true)
    (hr : decideFinalResponse h rnd st.requestCounter st.successfulResponses
      st.failedResponses = some r)
    (hsent : st.alreadySent = false) :
    finish h rnd st = .returned (st.w ++ [written r]) := by
  obtain ⟨q, hq⟩ := Option.isSome_iff_exists.mp
    (decideFinalResponse_request h rnd _ _ _ r hS hF hr)
  unfold finish
  rw [hr]
  simp [hq, hsent, sendResponse, written]

theorem finish_alreadySent (h : multiplexingHandler) (rnd : Nat) (st : LoopState)
    (hS : ∀ x ∈ st.successfulResponses, x.Request.isSome = true)
    (hF : ∀ x ∈ st.failedResponses, x.Request.isSome = true)
    (hinv : st.requestCounter
      = (st.successfulResponses.length : Int) + (st.failedResponses.length : Int))
    (hsent : st.alreadySent = true) :
    finish h rnd st = .returned st.w := by
  obtain ⟨r, hr⟩ := decideFinalResponse_isSome h rnd _ _ _ hinv
  obtain ⟨q, hq⟩ := Option.isSome_iff_exists.mp
    (decideFinalResponse_request h rnd _ _ _ r hS hF hr)
  unfold finish
  rw [hr]
  simp [hq, hsent]

theorem decide_mixed_strict (h : multiplexingHandler) (hams : h.allMustSucceed = true)
    (rnd : Nat) (totalCount : Int) (succ failed : List Response)
    (hs : succ ≠ []) (hf : failed ≠ [])
    (hinv : totalCount = (succ.length : Int) + (failed.length : Int)) :
    ∃ r ∈ failed, decideFinalResponse h rnd totalCount succ failed = some r := by
  have hs1 : 0 < succ.length := List.length_pos.mpr hs
  have hf1 : 0 < failed.length := List.length_pos.mpr hf
  obtain ⟨r, hmem, hr⟩ := randomResponse_mem rnd failed hf
  refine ⟨r, hmem, ?_⟩
  unfold decideFinalResponse
  simp only
  rw [if_neg (by omega), if_neg (by omega), if_neg (by omega), if_pos ⟨by omega, hams⟩]
  exact hr

theorem decide_mixed_lenient (h : multiplexingHandler) (hams : h.allMustSucceed = false)
    (rnd : Nat) (totalCount : Int) (succ failed : List Response)
    (hs : succ ≠ []) (hf : failed ≠ [])
    (hinv : totalCount = (succ.length : Int) + (failed.length : Int)) :
    decideFinalResponse h rnd totalCount succ failed
      = some (newResponse 503 "unknown error") := by
  have hs1 : 0 < succ.length := List.length_pos.mpr hs
  have hf1 : 0 < failed.length := List.length_pos.mpr hf
  unfold decideFinalResponse
  simp only
  rw [if_neg (by omega), if_neg (by omega), if_neg (by omega), if_neg (by simp [hams])]

theorem decide_allSucceeded (h : multiplexingHandler) (rnd : Nat) (succ : List Response)
    (hs : succ ≠ []) :
    ∃ r ∈ succ, decideFinalResponse h rnd (succ.length : Int) succ [] = some r := by
  have hs1 : 0 < succ.length := List.length_pos.mpr hs
  obtain ⟨r, hmem, hr⟩ := randomResponse_mem rnd succ hs
  refine ⟨r, hmem, ?_⟩
  unfold decideFinalResponse
  simp only
  rw [if_neg (by omega), if_pos (by omega)]
  exact hr

theorem decide_allFailed (h : multiplexingHandler) (rnd : Nat) (failed : List Response)
    (hf : failed ≠ []) :
    ∃ r ∈ failed, decideFinalResponse h rnd (failed.length : Int) [] failed = some r := by
  have hf1 : 0 < failed.length := List.length_pos.mpr hf
  obtain ⟨r, hmem, hr⟩ := randomResponse_mem rnd failed hf
  refine ⟨r, hmem, ?_⟩
  unfold decideFinalResponse
  simp only
  rw [if_neg (by omega), if_neg (by simp only [List.length_nil, Nat.cast_zero]; omega),
    if_pos trivial]
  exact hr

theorem filter_succeeded_ne_nil (rs : List Response)
    (hs : ∃ r ∈ rs, r.StatusCode < 400) : rs.filter (fun r => !isFailed r) ≠ [] := by
  obtain ⟨r, hmem, hr⟩ := hs
  have : r ∈ rs.filter (fun r => !isFailed r) := by
    rw [List.mem_filter]
    refine ⟨hmem, ?_⟩
    simp only [isFailed, Bool.not_eq_true', decide_eq_false_iff_not]
    omega
  exact List.ne_nil_of_mem this

theorem filter_failed_ne_nil (rs : List Response)
    (hf : ∃ r ∈ rs, r.StatusCode ≥ 400) : rs.filter isFailed ≠ [] := by
  obtain ⟨r, hmem, hr⟩ := hf
  have : r ∈ rs.filter isFailed := by
    rw [List.mem_filter]
    exact ⟨hmem, by simp [isFailed, hr]⟩
  exact List.ne_nil_of_mem this

theorem find_succeeded (rs : List Response) (hs : ∃ r ∈ rs, r.StatusCode < 400) :
    ∃ r, rs.find? (fun x => decide (x.StatusCode < 400)) = some r
      ∧ r ∈ rs ∧ r.StatusCode < 400 := by
  cases hfind : rs.find? (fun x => decide (x.StatusCode < 400)) with
  | none =>
    obtain ⟨r, hmem, hr⟩ := hs
    have := List.find?_eq_none.mp hfind r hmem
    simp [hr] at this
  | some r =>
    refine ⟨r, rfl, List.mem_of_find?_eq_some hfind, ?_⟩
    have := List.find?_some hfind
    simpa using this

/-! ## The claims -/

/-- C1: in a run without timeout whose completed attempts hold a success
(status below 400) and a failure (status at least 400), policy "all must
succeed" writes exactly one response, carrying the status of one of the failed
attempts (so not 2xx); policy "not all must succeed" writes exactly one
response, the first success to complete, with its status, header and body. -/
theorem ServeHTTP_mixed (h : multiplexingHandler) (env : Env) (sched : Schedule)
    (req : Request)
    (hperm : sched.perm.Perm (List.range (GetTargetAddresses h).length))
    (hdl : sched.deadline = none)
    (hs : ∃ r ∈ completedOf h env sched req, r.StatusCode < 400)
    (hf : ∃ r ∈ completedOf h env sched req, r.StatusCode ≥ 400) :
    (h.allMustSucceed = true →
      ∃ r ∈ completedOf h env sched req, r.StatusCode ≥ 400 ∧
        ∃ x, ServeHTTP h env sched [] req = .returned [x] ∧ x.StatusCode = r.StatusCode
          ∧ ¬ (200 ≤ x.StatusCode ∧ x.StatusCode < 300)) ∧
    (h.allMustSucceed = false →
      ∃ r, (completedOf h env sched req).find? (fun x => decide (x.StatusCode < 400)) = some r
        ∧ r ∈ completedOf h env sched req ∧ r.StatusCode < 400
        ∧ ServeHTTP h env sched [] req = .returned [written r]) := by
  have hlt := perm_lt _ _ hperm
  rw [ServeHTTP_noDeadline h env sched [] req hlt hdl]
  have hreq := completedOf_request h env sched req
  generalize completedOf h env sched req = rs at hs hf hreq ⊢
  have hinv := afterRecvs_init_counter h [] rs
  obtain ⟨hS, hF⟩ := afterRecvs_init_requests h [] rs hreq
  constructor
  · intro hams
    have hw : (afterRecvs h (initState []) rs).w = [] :=
      (afterRecvs_allMustSucceed h hams (initState []) rs).1
    have hsent : (afterRecvs h (initState []) rs).alreadySent = false :=
      (afterRecvs_allMustSucceed h hams (initState []) rs).2.1
    have hsucc : (afterRecvs h (initState []) rs).successfulResponses
        = rs.filter (fun r => !isFailed r) :=
      (afterRecvs_allMustSucceed h hams (initState []) rs).2.2
    have hfail : (afterRecvs h (initState []) rs).failedResponses
        = (rs.filter isFailed).map drained :=
      afterRecvs_failed h (initState []) rs
    have hs1 : (afterRecvs h (initState []) rs).successfulResponses ≠ [] := by
      rw [hsucc]; exact filter_succeeded_ne_nil rs hs
    have hf1 : (afterRecvs h (initState []) rs).failedResponses ≠ [] := by
      rw [hfail]
      intro hnil
      exact filter_failed_ne_nil rs hf (List.map_eq_nil_iff.mp hnil)
    obtain ⟨r1, hmem, hr1⟩ := decide_mixed_strict h hams sched.rnd _ _ _ hs1 hf1 hinv
    rw [hfail, List.mem_map] at hmem
    obtain ⟨r0, hr0mem, hr0⟩ := hmem
    rw [List.mem_filter] at hr0mem
    have hcode : r0.StatusCode ≥ 400 := by simpa [isFailed] using hr0mem.2
    refine ⟨r0, hr0mem.1, hcode, written r1, ?_, ?_, ?_⟩
    · rw [finish_notSent h sched.rnd _ r1 hS hF hr1 hsent, hw]
      rfl
    · rw [← hr0]; rfl
    · have : (written r1).StatusCode = r0.StatusCode := by rw [← hr0]; rfl
      rw [this]
      omega
  · intro hams
    obtain ⟨r, hfind, hmem, hcode⟩ := find_succeeded rs hs
    obtain ⟨hw, hsent⟩ := afterRecvs_earlyForward h hams (initState []) rfl rs r hfind
    refine ⟨r, hfind, hmem, hcode, ?_⟩
    rw [finish_alreadySent h sched.rnd _ hS hF hinv hsent, hw]
    rfl

theorem ServeHTTP_mixed_witness :
    (∃ r ∈ completedOf (handlerFor true 60 ["ok:80", "err:80"]) envMixed
          ⟨[1, 0], [0, 1], none, 7⟩ getRequest, r.StatusCode ≥ 400 ∧
        ∃ x, ServeHTTP (handlerFor true 60 ["ok:80", "err:80"]) envMixed
            ⟨[1, 0], [0, 1], none, 7⟩ [] getRequest = .returned [x]
          ∧ x.StatusCode = r.StatusCode ∧ ¬ (200 ≤ x.StatusCode ∧ x.StatusCode < 300)) ∧
    (∃ r, (completedOf (handlerFor false 60 ["ok:80", "err:80"]) envMixed
          ⟨[1, 0], [0, 1], none, 7⟩ getRequest).find?
            (fun x => decide (x.StatusCode < 400)) = some r
        ∧ r ∈ completedOf (handlerFor false 60 ["ok:80", "err:80"]) envMixed
          ⟨[1, 0], [0, 1], none, 7⟩ getRequest
        ∧ r.StatusCode < 400
        ∧ ServeHTTP (handlerFor false 60 ["ok:80", "err:80"]) envMixed
            ⟨[1, 0], [0, 1], none, 7⟩ [] getRequest = .returned [written r]) :=
  ⟨(ServeHTTP_mixed (handlerFor true 60 ["ok:80", "err:80"]) envMixed
      ⟨[1, 0], [0, 1], none, 7⟩ getRequest (by decide) rfl (by decide) (by decide)).1 rfl,
   (ServeHTTP_mixed (handlerFor false 60 ["ok:80", "err:80"]) envMixed
      ⟨[1, 0], [0, 1], none, 7⟩ getRequest (by decide) rfl (by decide) (by decide)).2 rfl⟩

theorem attemptResponses_length (h : multiplexingHandler) (env : Env)
    (dispatched : List Request) :
    (attemptResponses h env dispatched).length = dispatched.length := by
  simp [attemptResponses]

theorem completed_perm (sched : Schedule) (responses : List Response)
    (hcompl : sched.completion.Perm (List.range responses.length)) :
    (completed sched responses).Perm responses := by
  have h1 := hcompl.filterMap (fun j => responses[j]?)
  rwa [filterMap_getElem?_range] at h1

theorem dispatchedOf_ne_nil (h : multiplexingHandler) (env : Env) (sched : Schedule)
    (req : Request) (hperm : sched.perm.Perm (List.range (GetTargetAddresses h).length))
    (hdisp : ∃ t ∈ GetTargetAddresses h, ∃ d, rewriteOf env req t = some d) :
    dispatchedOf h env sched req ≠ [] := by
  obtain ⟨t, ht, d, hd⟩ := hdisp
  have hmem : d ∈ (GetTargetAddresses h).filterMap (rewriteOf env req) :=
    List.mem_filterMap.mpr ⟨t, ht, hd⟩
  have := (dispatchedOf_perm h env sched req hperm).mem_iff.mpr hmem
  exact List.ne_nil_of_mem this

theorem filter_eq_self_of_succeeded (rs : List Response)
    (hall : ∀ r ∈ rs, r.StatusCode < 400) : rs.filter (fun r => !isFailed r) = rs := by
  rw [List.filter_eq_self]
  intro r hr
  have := hall r hr
  simp only [isFailed, Bool.not_eq_true', decide_eq_false_iff_not]
  omega

theorem filter_failed_eq_nil (rs : List Response)
    (hall : ∀ r ∈ rs, r.StatusCode < 400) : rs.filter isFailed = [] := by
  rw [List.filter_eq_nil_iff]
  intro r hr
  have := hall r hr
  simp only [isFailed, decide_eq_true_eq]
  omega

/-- All responses received are below 400 and there is at least one: exactly
one response is written, one of those received, with status, header and body
as received. -/
theorem finish_allSucceeded (h : multiplexingHandler) (rnd : Nat) (rs : List Response)
    (hreq : ∀ r ∈ rs, r.Request.isSome = true)
    (hne : rs ≠ []) (hall : ∀ r ∈ rs, r.StatusCode < 400) :
    ∃ r ∈ rs, finish h rnd (afterRecvs h (initState []) rs) = .returned [written r] := by
  have hinv := afterRecvs_init_counter h [] rs
  obtain ⟨hS, hF⟩ := afterRecvs_init_requests h [] rs hreq
  cases hams : h.allMustSucceed with
  | true =>
    have hw : (afterRecvs h (initState []) rs).w = [] :=
      (afterRecvs_allMustSucceed h hams (initState []) rs).1
    have hsent : (afterRecvs h (initState []) rs).alreadySent = false :=
      (afterRecvs_allMustSucceed h hams (initState []) rs).2.1
    have hsucc : (afterRecvs h (initState []) rs).successfulResponses = rs := by
      have := (afterRecvs_allMustSucceed h hams (initState []) rs).2.2
      rw [filter_eq_self_of_succeeded rs hall] at this
      exact this
    have hfail : (afterRecvs h (initState []) rs).failedResponses = [] := by
      have := afterRecvs_failed h (initState []) rs
      rw [filter_failed_eq_nil rs hall] at this
      exact this
    have hcount : (afterRecvs h (initState []) rs).requestCounter = (rs.length : Int) := by
      rw [hinv, hsucc, hfail]; simp
    obtain ⟨r, hmem, hr⟩ := decide_allSucceeded h rnd rs hne
    refine ⟨r, hmem, ?_⟩
    rw [finish_notSent h rnd _ r hS hF (by rw [hcount, hsucc, hfail]; exact hr) hsent, hw]
    rfl
  | false =>
    obtain ⟨x, hx⟩ := List.exists_mem_of_ne_nil rs hne
    obtain ⟨r, hfind, hmem, _⟩ := find_succeeded rs ⟨x, hx, hall x hx⟩
    obtain ⟨hw, hsent⟩ := afterRecvs_earlyForward h hams (initState []) rfl rs r hfind
    refine ⟨r, hmem, ?_⟩
    rw [finish_alreadySent h rnd _ hS hF hinv hsent, hw]
    rfl

/-- C2, as amended: when at least one entry of the target list is rewritten
into a destination, every attempt is answered with a 2xx status, all attempts
complete and no timeout occurs, then under either policy exactly one response
is written; it is the response of one of the attempts, with that 2xx status,
its header and its body unchanged. -/
theorem ServeHTTP_all2xx (h : multiplexingHandler) (env : Env) (sched : Schedule)
    (req : Request)
    (hperm : sched.perm.Perm (List.range (GetTargetAddresses h).length))
    (hcompl : sched.completion.Perm (List.range (responsesOf h env sched req).length))
    (hdl : sched.deadline = none)
    (hdisp : ∃ t ∈ GetTargetAddresses h, ∃ d, rewriteOf env req t = some d)
    (h2xx : ∀ r ∈ responsesOf h env sched req, 200 ≤ r.StatusCode ∧ r.StatusCode < 300) :
    ∃ r ∈ responsesOf h env sched req,
      ServeHTTP h env sched [] req = .returned [written r]
        ∧ 200 ≤ r.StatusCode ∧ r.StatusCode < 300 := by
  have hlt := perm_lt _ _ hperm
  have hp : (completedOf h env sched req).Perm (responsesOf h env sched req) :=
    completed_perm sched _ hcompl
  have hne : completedOf h env sched req ≠ [] := by
    intro hnil
    rw [hnil] at hp
    have h0 : responsesOf h env sched req = [] := hp.symm.eq_nil
    have h1 : (responsesOf h env sched req).length = (dispatchedOf h env sched req).length :=
      attemptResponses_length h env _
    rw [h0] at h1
    exact dispatchedOf_ne_nil h env sched req hperm hdisp
      (List.length_eq_zero.mp h1.symm)
  have hall : ∀ r ∈ completedOf h env sched req, r.StatusCode < 400 := by
    intro r hr
    have := (h2xx r (hp.mem_iff.mp hr)).2
    omega
  obtain ⟨r, hmem, hr⟩ := finish_allSucceeded h sched.rnd _
    (completedOf_request h env sched req) hne hall
  refine ⟨r, hp.mem_iff.mp hmem, ?_, h2xx r (hp.mem_iff.mp hmem)⟩
  rw [ServeHTTP_noDeadline h env sched [] req hlt hdl]
  exact hr

theorem ServeHTTP_all2xx_witness :
    ∃ r ∈ responsesOf (handlerFor false 60 ["ok:80", "ok:80"]) envAllOk
        ⟨[1, 0], [1, 0], none, 3⟩ getRequest,
      ServeHTTP (handlerFor false 60 ["ok:80", "ok:80"]) envAllOk
          ⟨[1, 0], [1, 0], none, 3⟩ [] getRequest = .returned [written r]
        ∧ 200 ≤ r.StatusCode ∧ r.StatusCode < 300 :=
  ServeHTTP_all2xx (handlerFor false 60 ["ok:80", "ok:80"]) envAllOk
    ⟨[1, 0], [1, 0], none, 3⟩ getRequest (by decide) (by decide) rfl
    ⟨"ok:80", by decide, _, rfl⟩ (by decide)

/-- C2 fails as stated: the target list is not empty, every backend answers
200 and no timeout occurs, yet the only entry cannot be rewritten into a
destination, no attempt is dispatched and the handler writes the synthesized
503 "no endpoints to query". -/
theorem ServeHTTP_all2xx_counterexample :
    GetTargetAddresses (handlerFor true 60 ["bad host"]) ≠ [] ∧
    (∀ idx q, ∃ r, RoundTrip envAllOk idx q = .ok r ∧ 200 ≤ r.StatusCode
      ∧ r.StatusCode < 300) ∧
    (⟨[0], [], none, 0⟩ : Schedule).deadline = none ∧
    ServeHTTP (handlerFor true 60 ["bad host"]) envAllOk ⟨[0], [], none, 0⟩ [] getRequest
      = .returned [⟨503, [], "no endpoints to query"⟩] :=
  ⟨by decide,
   fun _ q => ⟨okResponse q, rfl, show (200 : Int) ≤ 200 by decide,
     show (200 : Int) < 300 by decide⟩,
   rfl, by decide⟩

/-- C3: the code at the failing input. A single backend answers 503 with body
"fail\n"; under either policy the handler writes status 503 with an empty
body, because the failure branch has consumed the body before `sendResponse`
copies it. -/
theorem ServeHTTP_allFailed_body_lost :
    (responsesOf (handlerFor true 60 ["err:80"]) envAllErr ⟨[0], [0], none, 0⟩
        getRequest).map written
      = [⟨503, [("Content-Length", ["5"])], "fail\n"⟩] ∧
    ServeHTTP (handlerFor true 60 ["err:80"]) envAllErr ⟨[0], [0], none, 0⟩ [] getRequest
      = .returned [⟨503, [("Content-Length", ["5"])], ""⟩] ∧
    ServeHTTP (handlerFor false 60 ["err:80"]) envAllErr ⟨[0], [0], none, 0⟩ [] getRequest
      = .returned [⟨503, [("Content-Length", ["5"])], ""⟩] := by
  decide

/-- C4, as amended: when the total count equals the number of successful plus
the number of failed responses, `decideFinalResponse` returns what the five
final-decision rules prescribe, for either policy and every random draw. -/
theorem decideFinalResponse_rules (h : multiplexingHandler) (rnd : Nat) (totalCount : Int)
    (succ failed : List Response)
    (hinv : totalCount = (succ.length : Int) + (failed.length : Int)) :
    Prescribes (finalDecisionRule h.allMustSucceed totalCount succ.length failed.length)
      succ failed (decideFinalResponse h rnd totalCount succ failed) := by
  by_cases h0 : (failed.length : Int) = 0 ∧ (succ.length : Int) = 0
  · have ht : totalCount = 0 := by omega
    have hd : decideFinalResponse h rnd totalCount succ failed
        = some (newResponse 503 "no endpoints to query") := by
      unfold decideFinalResponse; simp only; rw [if_pos h0]
    rw [hd]
    simp only [finalDecisionRule, if_pos ht, Prescribes]
  · have ht : ¬ totalCount = 0 := by omega
    by_cases h1 : (succ.length : Int) ≥ totalCount
    · have hs : succ ≠ [] := by
        intro hnil
        subst hnil
        simp only [List.length_nil, Nat.cast_zero, and_true, true_and] at h0 h1 hinv
        omega
      obtain ⟨r, hmem, hr⟩ := randomResponse_mem rnd succ hs
      have hd : decideFinalResponse h rnd totalCount succ failed = some r := by
        unfold decideFinalResponse; simp only; rw [if_neg h0, if_pos h1]; exact hr
      rw [hd]
      simp only [finalDecisionRule, if_neg ht, if_pos h1, Prescribes]
      exact ⟨r, hmem, rfl⟩
    · have hf : failed ≠ [] := by
        intro hnil
        subst hnil
        simp only [List.length_nil, Nat.cast_zero, and_true, true_and] at h0 h1 hinv
        omega
      obtain ⟨r, hmem, hr⟩ := randomResponse_mem rnd failed hf
      by_cases h2 : (failed.length : Int) = totalCount
      · have hd : decideFinalResponse h rnd totalCount succ failed = some r := by
          unfold decideFinalResponse; simp only
          rw [if_neg h0, if_neg h1, if_pos h2]; exact hr
        rw [hd]
        simp only [finalDecisionRule, if_neg ht, if_neg h1, if_pos h2, Prescribes]
        exact ⟨r, hmem, rfl⟩
      · by_cases h3 : (failed.length : Int) > 0 ∧ h.allMustSucceed = true
        · have hd : decideFinalResponse h rnd totalCount succ failed = some r := by
            unfold decideFinalResponse; simp only
            rw [if_neg h0, if_neg h1, if_neg h2, if_pos h3]; exact hr
          rw [hd]
          simp only [finalDecisionRule, if_neg ht, if_neg h1, if_neg h2, if_pos h3,
            Prescribes]
          exact ⟨r, hmem, rfl⟩
        · have hd : decideFinalResponse h rnd totalCount succ failed
              = some (newResponse 503 "unknown error") := by
            unfold decideFinalResponse; simp only
            rw [if_neg h0, if_neg h1, if_neg h2, if_neg h3]
          rw [hd]
          simp only [finalDecisionRule, if_neg ht, if_neg h1, if_neg h2, if_neg h3,
            Prescribes]

theorem decideFinalResponse_rules_witness :
    Prescribes
      (finalDecisionRule (handlerFor true 60 ["ok:80", "err:80"]).allMustSucceed 2
        ([okResponse getRequest].length) ([drained (errResponse getRequest)].length))
      [okResponse getRequest] [drained (errResponse getRequest)]
      (decideFinalResponse (handlerFor true 60 ["ok:80", "err:80"]) 5 2
        [okResponse getRequest] [drained (errResponse getRequest)]) :=
  decideFinalResponse_rules (handlerFor true 60 ["ok:80", "err:80"]) 5 2
    [okResponse getRequest] [drained (errResponse getRequest)] (by decide)

/-- C4 fails as stated: with total count 0 and one successful response the
rules prescribe the synthesized 503 "no endpoints to query" (rule 1), while
`decideFinalResponse` returns the successful response. -/
theorem decideFinalResponse_rules_counterexample :
    finalDecisionRule true 0 ([okResponse getRequest].length) (([] : List Response).length)
      = Rule.noEndpoints ∧
    decideFinalResponse (handlerFor true 60 []) 0 0 [okResponse getRequest] []
      = some (okResponse getRequest) ∧
    ¬ Prescribes
        (finalDecisionRule (handlerFor true 60 []).allMustSucceed 0
          ([okResponse getRequest].length) (([] : List Response).length))
        [okResponse getRequest] []
        (decideFinalResponse (handlerFor true 60 []) 0 0 [okResponse getRequest] []) := by
  refine ⟨by decide, by decide, ?_⟩
  have h1 : finalDecisionRule (handlerFor true 60 []).allMustSucceed 0
      ([okResponse getRequest].length) (([] : List Response).length) = Rule.noEndpoints := by
    decide
  rw [h1]
  simp only [Prescribes]
  decide

/-- C5: the code at the failing input. Policy "not all must succeed", two
targets; the first attempt completes with 200 and is forwarded, then the
deadline is taken before the second completes: `sendResponse` runs a second
time, with the synthesized 504. -/
theorem ServeHTTP_writes_twice :
    ServeHTTP (handlerFor false 60 ["ok:80", "err:80"]) envMixed
        ⟨[0, 1], [0, 1], some 1, 0⟩ [] getRequest
      = .returned [⟨200, [("Content-Length", ["7"])], "OK 200\n"⟩,
          ⟨504, [], "request timed out"⟩] := by
  decide

/-- C6, as amended: when the loop takes the deadline and no response was
forwarded early (the policy is "all must succeed", or none of the attempts
completed so far succeeded), the handler writes exactly one response, the
synthesized 504 "request timed out", however many attempts had completed. -/
theorem ServeHTTP_timeout_unsent (h : multiplexingHandler) (env : Env) (sched : Schedule)
    (req : Request) (k : Nat)
    (hperm : sched.perm.Perm (List.range (GetTargetAddresses h).length))
    (hdl : sched.deadline = some k)
    (hnone : h.allMustSucceed = true
      ∨ ∀ r ∈ (completedOf h env sched req).take k, r.StatusCode ≥ 400) :
    ServeHTTP h env sched [] req = .returned [⟨504, [], "request timed out"⟩] := by
  rw [ServeHTTP_deadline h env sched [] req (perm_lt _ _ hperm) k hdl]
  have hw : (afterRecvs h (initState []) ((completedOf h env sched req).take k)).w = [] := by
    cases hnone with
    | inl hams => exact (afterRecvs_allMustSucceed h hams (initState []) _).1
    | inr hall => exact (afterRecvs_allFailed h (initState []) _ hall).1
  rw [hw]
  rfl

theorem ServeHTTP_timeout_unsent_witness :
    ServeHTTP (handlerFor true 60 ["ok:80", "ok:80", "err:80"]) envMixed
        ⟨[2, 0, 1], [1, 2, 0], some 2, 0⟩ [] getRequest
      = .returned [⟨504, [], "request timed out"⟩] :=
  ServeHTTP_timeout_unsent (handlerFor true 60 ["ok:80", "ok:80", "err:80"]) envMixed
    ⟨[2, 0, 1], [1, 2, 0], some 2, 0⟩ getRequest 2 (by decide) rfl (Or.inl rfl)

/-- C6 fails as stated: policy "not all must succeed", three targets, two
attempts have completed with 200 when the deadline is taken before the third
completes. The response the caller got is the first 200, forwarded early; the
504 only follows it. -/
theorem ServeHTTP_timeout_unsent_counterexample :
    (⟨[0, 1, 2], [0, 1, 2], some 2, 0⟩ : Schedule).deadline = some 2 ∧
    2 < (responsesOf (handlerFor false 60 ["ok:80", "ok:80", "err:80"]) envMixed
        ⟨[0, 1, 2], [0, 1, 2], some 2, 0⟩ getRequest).length ∧
    ServeHTTP (handlerFor false 60 ["ok:80", "ok:80", "err:80"]) envMixed
        ⟨[0, 1, 2], [0, 1, 2], some 2, 0⟩ [] getRequest
      = .returned [⟨200, [("Content-Length", ["7"])], "OK 200\n"⟩,
          ⟨504, [], "request timed out"⟩] ∧
    ServeHTTP (handlerFor false 60 ["ok:80", "ok:80", "err:80"]) envMixed
        ⟨[0, 1, 2], [0, 1, 2], some 2, 0⟩ [] getRequest
      ≠ .returned [⟨504, [], "request timed out"⟩] := by
  decide

/-- C8, as amended: given an empty target list, in every run in which the loop
sees the channel closed before it takes the deadline, the handler writes
exactly one response, the synthesized 503 "no endpoints to query", for either
policy. -/
theorem ServeHTTP_noTargets (h : multiplexingHandler) (env : Env) (sched : Schedule)
    (req : Request)
    (hperm : sched.perm.Perm (List.range (GetTargetAddresses h).length))
    (hempty : GetTargetAddresses h = [])
    (hdl : sched.deadline = none) :
    ServeHTTP h env sched [] req = .returned [⟨503, [], "no endpoints to query"⟩] := by
  have hlt := perm_lt _ _ hperm
  rw [ServeHTTP_noDeadline h env sched [] req hlt hdl]
  have hd : dispatchedOf h env sched req = [] := by
    have hp := dispatchedOf_perm h env sched req hperm
    rw [hempty] at hp
    exact hp.eq_nil
  have hc : completedOf h env sched req = [] := by
    unfold completedOf responsesOf completed
    rw [hd]
    simp [attemptResponses]
  rw [hc]
  rfl

theorem ServeHTTP_noTargets_witness :
    ServeHTTP (handlerFor false 60 []) envAllOk ⟨[], [], none, 0⟩ [] getRequest
      = .returned [⟨503, [], "no endpoints to query"⟩] :=
  ServeHTTP_noTargets (handlerFor false 60 []) envAllOk ⟨[], [], none, 0⟩ getRequest
    (by decide) rfl rfl

/-- C8 fails as stated: with an empty target list and a zero timeout the
context is expired when the loop starts, the loop takes the deadline before
it sees the channel closed, and the handler writes the synthesized 504. -/
theorem ServeHTTP_noTargets_counterexample :
    GetTargetAddresses (handlerFor true 0 []) = [] ∧
    (handlerFor true 0 []).timeout = 0 ∧
    ServeHTTP (handlerFor true 0 []) envAllOk ⟨[], [], some 0, 0⟩ [] getRequest
      = .returned [⟨504, [], "request timed out"⟩] := by
  decide

theorem length_filterMap_eq_filter {α β : Type} (f : α → Option β) (l : List α) :
    (l.filterMap f).length = (l.filter (fun a => (f a).isSome)).length := by
  induction l with
  | nil => rfl
  | cons a l ih =>
    cases hfa : f a with
    | none => simp [List.filterMap_cons, List.filter_cons, hfa, ih]
    | some b => simp [List.filterMap_cons, List.filter_cons, hfa, ih]

/-- C10: for every target snapshot, shuffled in any order, the attempts
`ServeHTTP` dispatches are, entry for entry (a repeated entry as often as it
is repeated), the copies of the entries whose destination rewrite succeeds;
an entry whose rewrite fails gets none. When all attempts complete and no
timeout occurs the loop is left through the closed channel with its counter
equal to the number of entries whose rewrite succeeded, and the handler's
answer is decided by `decideFinalResponse` called with that number as total
count and the two collections of the loop: the response it returns is what
the handler writes, unless a response was forwarded before. -/
theorem ServeHTTP_attempt_count (h : multiplexingHandler) (env : Env) (sched : Schedule)
    (req : Request)
    (hperm : sched.perm.Perm (List.range (GetTargetAddresses h).length))
    (hcompl : sched.completion.Perm
      (List.range ((GetTargetAddresses h).filterMap (rewriteOf env req)).length))
    (hdl : sched.deadline = none) :
    ∃ req1 dispatched st final,
      dispatchLoop env (GetTargetAddresses h) sched.perm req [] = some (req1, dispatched) ∧
      dispatched.Perm ((GetTargetAddresses h).filterMap (rewriteOf env req)) ∧
      mainLoop h (eventsOf sched (attemptResponses h env dispatched)) (initState [])
        = some (.broke st) ∧
      st.requestCounter
        = (((GetTargetAddresses h).filter
            (fun t => (rewriteOf env req t).isSome)).length : Int) ∧
      ServeHTTP h env sched [] req = finish h sched.rnd st ∧
      decideFinalResponse h sched.rnd
          (((GetTargetAddresses h).filter
            (fun t => (rewriteOf env req t).isSome)).length : Int)
          st.successfulResponses st.failedResponses = some final ∧
      ServeHTTP h env sched [] req
        = (if st.alreadySent = true then Outcome.returned st.w
           else Outcome.returned (st.w ++ [written final])) := by
  have hlt := perm_lt _ _ hperm
  have hloop := dispatchLoop_eq env (GetTargetAddresses h) sched.perm req [] hlt
  have hd := dispatchedOf_eq h env sched req hlt
  have hp := dispatchedOf_perm h env sched req hperm
  have hlen : (responsesOf h env sched req).length
      = ((GetTargetAddresses h).filterMap (rewriteOf env req)).length := by
    unfold responsesOf
    rw [attemptResponses_length, hp.length_eq]
  have hc : (completedOf h env sched req).Perm (responsesOf h env sched req) :=
    completed_perm sched _ (by rw [hlen]; exact hcompl)
  have hreq := completedOf_request h env sched req
  have hrun := ServeHTTP_noDeadline h env sched [] req hlt hdl
  have hcountN : (afterRecvs h (initState []) (completedOf h env sched req)).requestCounter
      = (((GetTargetAddresses h).filter
          (fun t => (rewriteOf env req t).isSome)).length : Int) := by
    have hcount : (afterRecvs h (initState []) (completedOf h env sched req)).requestCounter
        = 0 + ((completedOf h env sched req).length : Int) :=
      afterRecvs_counter h (initState []) _
    rw [hcount, hc.length_eq, hlen, length_filterMap_eq_filter]
    simp
  have hinv := afterRecvs_init_counter h [] (completedOf h env sched req)
  obtain ⟨hRS, hRF⟩ := afterRecvs_init_requests h [] _ hreq
  obtain ⟨final, hfinal⟩ := decideFinalResponse_isSome h sched.rnd _ _ _ hinv
  refine ⟨_, _, afterRecvs h (initState []) (completedOf h env sched req), final, hloop,
    ?_, ?_, hcountN, hrun, ?_, ?_⟩
  · rw [List.nil_append, ← hd]
    exact hp
  · rw [List.nil_append, ← hd]
    unfold eventsOf
    simp only [hdl]
    have hreq1 : ∀ r ∈ completed sched (attemptResponses h env (dispatchedOf h env sched req)),
        r.Request.isSome = true := hreq
    rw [mainLoop_recvs h _ _ _ hreq1]
    rfl
  · rw [← hcountN]
    exact hfinal
  · obtain ⟨q, hq⟩ := Option.isSome_iff_exists.mp
      (decideFinalResponse_request h sched.rnd _ _ _ final hRS hRF hfinal)
    rw [hrun]
    unfold finish
    rw [hfinal]
    cases hsent : (afterRecvs h (initState []) (completedOf h env sched req)).alreadySent with
    | true => simp [hq]
    | false => simp [hq, sendResponse, written]

theorem ServeHTTP_attempt_count_witness :
    (∃ req1 dispatched st final,
      dispatchLoop envAllOk
          (GetTargetAddresses (handlerFor true 60 ["ok:80", "bad host", "ok:80"]))
          [1, 2, 0] postRequest [] = some (req1, dispatched) ∧
      dispatched.Perm
        ((GetTargetAddresses (handlerFor true 60 ["ok:80", "bad host", "ok:80"])).filterMap
          (rewriteOf envAllOk postRequest)) ∧
      mainLoop (handlerFor true 60 ["ok:80", "bad host", "ok:80"])
          (eventsOf ⟨[1, 2, 0], [1, 0], none, 4⟩
            (attemptResponses (handlerFor true 60 ["ok:80", "bad host", "ok:80"]) envAllOk
              dispatched))
          (initState [])
        = some (.broke st) ∧
      st.requestCounter = 2 ∧
      ServeHTTP (handlerFor true 60 ["ok:80", "bad host", "ok:80"]) envAllOk
          ⟨[1, 2, 0], [1, 0], none, 4⟩ [] postRequest
        = finish (handlerFor true 60 ["ok:80", "bad host", "ok:80"]) 4 st ∧
      decideFinalResponse (handlerFor true 60 ["ok:80", "bad host", "ok:80"]) 4 2
          st.successfulResponses st.failedResponses = some final ∧
      ServeHTTP (handlerFor true 60 ["ok:80", "bad host", "ok:80"]) envAllOk
          ⟨[1, 2, 0], [1, 0], none, 4⟩ [] postRequest
        = (if st.alreadySent = true then Outcome.returned st.w
           else Outcome.returned (st.w ++ [written final]))) ∧
    decideFinalResponse (handlerFor true 60 ["ok:80", "bad host", "ok:80"]) 4 2
        [okResponse (postRequestTo "http://ok:80/push?x=1"),
         okResponse (postRequestTo "http://ok:80/push?x=1")] []
      = some (okResponse (postRequestTo "http://ok:80/push?x=1")) ∧
    ServeHTTP (handlerFor true 60 ["ok:80", "bad host", "ok:80"]) envAllOk
        ⟨[1, 2, 0], [1, 0], none, 4⟩ [] postRequest
      = .returned [⟨200, [("Content-Length", ["7"])], "OK 200\n"⟩] :=
  ⟨ServeHTTP_attempt_count (handlerFor true 60 ["ok:80", "bad host", "ok:80"]) envAllOk
    ⟨[1, 2, 0], [1, 0], none, 4⟩ postRequest (by decide) (by decide) rfl,
   by decide, by decide⟩

/-- C11: when the round trip of an outbound request fails with error `e`,
`handleRequest` returns a response (it passes no error on) with status 500,
the text of `e` as body and the request attached; the main loop receives it
without a panic, and the classification step adds 1 to the counter, appends
it (its body read for the log) to the failed collection once and leaves the
successful collection, the writer and the sent flag as they were. -/
theorem handleRequest_transport_error (h : multiplexingHandler) (env : Env) (idx : Nat)
    (req : Request) (e : String) (st : LoopState) (evs : List Event)
    (herr : RoundTrip env idx req = .error e) :
    handleRequest h env idx req
      = { Status := e, StatusCode := 500, Header := [], Body := e, Request := some req } ∧
    (recvStep h st (handleRequest h env idx req)).requestCounter = st.requestCounter + 1 ∧
    (recvStep h st (handleRequest h env idx req)).failedResponses
      = st.failedResponses ++
          [{ Status := e, StatusCode := 500, Header := [], Body := "", Request := some req }] ∧
    (recvStep h st (handleRequest h env idx req)).successfulResponses
      = st.successfulResponses ∧
    (recvStep h st (handleRequest h env idx req)).w = st.w ∧
    (recvStep h st (handleRequest h env idx req)).alreadySent = st.alreadySent ∧
    mainLoop h (Event.recv (handleRequest h env idx req) :: evs) st
      = mainLoop h evs (recvStep h st (handleRequest h env idx req)) := by
  have hresp : handleRequest h env idx req
      = { Status := e, StatusCode := 500, Header := [], Body := e, Request := some req } := by
    unfold handleRequest
    rw [herr]
  have hcode : (handleRequest h env idx req).StatusCode ≥ 400 := by
    rw [hresp]
    show (500 : Int) ≥ 400
    decide
  refine ⟨hresp, recvStep_counter h st _, ?_, ?_, ?_, ?_, ?_⟩
  · unfold recvStep
    rw [if_pos hcode, hresp]
  · unfold recvStep
    rw [if_pos hcode]
  · unfold recvStep
    rw [if_pos hcode]
  · unfold recvStep
    rw [if_pos hcode]
  · rw [hresp]
    rfl

theorem handleRequest_transport_error_witness :
    handleRequest (handlerFor false 60 ["ok:80"]) envRefused 0 postRequest
      = { Status := "dial tcp 10.0.0.1:80: connect: connection refused", StatusCode := 500,
          Header := [], Body := "dial tcp 10.0.0.1:80: connect: connection refused",
          Request := some postRequest } ∧
    (recvStep (handlerFor false 60 ["ok:80"]) (initState [])
      (handleRequest (handlerFor false 60 ["ok:80"]) envRefused 0 postRequest)).requestCounter
      = (initState []).requestCounter + 1 :=
  ⟨(handleRequest_transport_error (handlerFor false 60 ["ok:80"]) envRefused 0 postRequest
      "dial tcp 10.0.0.1:80: connect: connection refused" (initState []) [] rfl).1,
   (handleRequest_transport_error (handlerFor false 60 ["ok:80"]) envRefused 0 postRequest
      "dial tcp 10.0.0.1:80: connect: connection refused" (initState []) [] rfl).2.1⟩

theorem recvStep_succeeded_status (h : multiplexingHandler) (st : LoopState) (r : Response)
    (hS : ∀ x ∈ st.successfulResponses, x.StatusCode < 400) :
    ∀ x ∈ (recvStep h st r).successfulResponses, x.StatusCode < 400 := by
  unfold recvStep
  split
  · exact hS
  · rename_i hr
    have hlt : r.StatusCode < 400 := by omega
    split
    · intro x hx
      rcases List.mem_append.mp hx with hx | hx
      · exact hS x hx
      · rw [List.mem_singleton.mp hx]; exact hlt
    · intro x hx
      rcases List.mem_append.mp hx with hx | hx
      · exact hS x hx
      · rw [List.mem_singleton.mp hx]; exact hlt

theorem afterRecvs_succeeded_status (h : multiplexingHandler) (st : LoopState)
    (rs : List Response) (hS : ∀ x ∈ st.successfulResponses, x.StatusCode < 400) :
    ∀ x ∈ (afterRecvs h st rs).successfulResponses, x.StatusCode < 400 := by
  induction rs generalizing st with
  | nil => exact hS
  | cons r rs ih =>
    rw [afterRecvs_cons]
    exact ih (recvStep h st r) (recvStep_succeeded_status h st r hS)

theorem recvStep_w_status (h : multiplexingHandler) (st : LoopState) (r : Response)
    (hW : ∀ x ∈ st.w, x.StatusCode < 400) :
    ∀ x ∈ (recvStep h st r).w, x.StatusCode < 400 := by
  unfold recvStep
  split
  · exact hW
  · rename_i hr
    have hlt : r.StatusCode < 400 := by omega
    split
    · intro x hx
      rcases List.mem_append.mp hx with hx | hx
      · exact hW x hx
      · rw [List.mem_singleton.mp hx]; exact hlt
    · exact hW

theorem afterRecvs_w_status (h : multiplexingHandler) (st : LoopState)
    (rs : List Response) (hW : ∀ x ∈ st.w, x.StatusCode < 400) :
    ∀ x ∈ (afterRecvs h st rs).w, x.StatusCode < 400 := by
  induction rs generalizing st with
  | nil => exact hW
  | cons r rs ih =>
    rw [afterRecvs_cons]
    exact ih (recvStep h st r) (recvStep_w_status h st r hW)

/-- Under the policy that tolerates failures the sent flag is set as soon as
the successful collection is not empty. -/
theorem afterRecvs_sent_or_none (h : multiplexingHandler) (hams : h.allMustSucceed = false)
    (st : LoopState) (rs : List Response)
    (hinv : st.alreadySent = true ∨ st.successfulResponses = []) :
    (afterRecvs h st rs).alreadySent = true ∨ (afterRecvs h st rs).successfulResponses = [] := by
  induction rs generalizing st with
  | nil => exact hinv
  | cons r rs ih =>
    rw [afterRecvs_cons]
    apply ih
    unfold recvStep
    split
    · exact hinv
    · split
      · exact Or.inl rfl
      · rename_i hcond
        left
        cases hsent : st.alreadySent with
        | true => rfl
        | false => simp [hams, hsent] at hcond

/-- Where the value `decideFinalResponse` returns comes from. -/
theorem decideFinalResponse_cases (h : multiplexingHandler) (rnd : Nat) (totalCount : Int)
    (succ failed : List Response) (r : Response)
    (hr : decideFinalResponse h rnd totalCount succ failed = some r) :
    r = newResponse 503 "no endpoints to query" ∨ r ∈ succ ∨ r ∈ failed ∨
      (r = newResponse 503 "unknown error" ∧
        ¬ ((failed.length : Int) = 0 ∧ (succ.length : Int) = 0) ∧
        ¬ ((succ.length : Int) ≥ totalCount) ∧ ¬ ((failed.length : Int) = totalCount) ∧
        ¬ ((failed.length : Int) > 0 ∧ h.allMustSucceed = true)) := by
  unfold decideFinalResponse at hr
  simp only at hr
  split at hr
  · simp only [Option.some.injEq] at hr
    exact Or.inl hr.symm
  · rename_i h0
    split at hr
    · exact Or.inr (Or.inl (randomResponse_mem_of_eq rnd succ r hr))
    · rename_i h1
      split at hr
      · exact Or.inr (Or.inr (Or.inl (randomResponse_mem_of_eq rnd failed r hr)))
      · rename_i h2
        split at hr
        · exact Or.inr (Or.inr (Or.inl (randomResponse_mem_of_eq rnd failed r hr)))
        · rename_i h3
          simp only [Option.some.injEq] at hr
          exact Or.inr (Or.inr (Or.inr ⟨hr.symm, h0, h1, h2, h3⟩))

theorem afterRecvs_init_failed_body (h : multiplexingHandler) (w : ResponseWriter)
    (rs : List Response) :
    ∀ x ∈ (afterRecvs h (initState w) rs).failedResponses, x.Body = "" := by
  intro x hx
  have hfail : (afterRecvs h (initState w) rs).failedResponses
      = (rs.filter isFailed).map drained := afterRecvs_failed h (initState w) rs
  rw [hfail, List.mem_map] at hx
  obtain ⟨y, _, hy⟩ := hx
  rw [← hy]
  rfl

/-- On the state the loop built, the decision "unknown error" means a mixed
outcome under the policy that tolerates failures, with a response already
forwarded. -/
theorem unknownError_state (h : multiplexingHandler) (rnd : Nat) (rs : List Response)
    (hdec : decideFinalResponse h rnd (afterRecvs h (initState []) rs).requestCounter
      (afterRecvs h (initState []) rs).successfulResponses
      (afterRecvs h (initState []) rs).failedResponses
        = some (newResponse 503 "unknown error")) :
    h.allMustSucceed = false ∧ (afterRecvs h (initState []) rs).successfulResponses ≠ [] ∧
      (afterRecvs h (initState []) rs).failedResponses ≠ [] ∧
      (afterRecvs h (initState []) rs).alreadySent = true := by
  have hinv := afterRecvs_init_counter h [] rs
  have hS := afterRecvs_succeeded_status h (initState []) rs (fun _ hx => by cases hx)
  have hF := afterRecvs_init_failed_body h [] rs
  rcases decideFinalResponse_cases h rnd _ _ _ _ hdec with hc | hc | hc | hc
  · exact absurd hc (by decide)
  · have := hS _ hc
    exact absurd this (by decide)
  · have := hF _ hc
    exact absurd this (by decide)
  · obtain ⟨_, h0, h1, h2, h3⟩ := hc
    have hams : h.allMustSucceed = false := by
      cases hb : h.allMustSucceed with
      | false => rfl
      | true => exact absurd ⟨by omega, hb⟩ h3
    have hs : (afterRecvs h (initState []) rs).successfulResponses ≠ [] := by
      intro hnil
      have hl : (afterRecvs h (initState []) rs).successfulResponses.length = 0 := by
        rw [hnil]; rfl
      omega
    have hf : (afterRecvs h (initState []) rs).failedResponses ≠ [] := by
      intro hnil
      have hl : (afterRecvs h (initState []) rs).failedResponses.length = 0 := by
        rw [hnil]; rfl
      omega
    refine ⟨hams, hs, hf, ?_⟩
    rcases afterRecvs_sent_or_none h hams (initState []) rs (Or.inr rfl) with hsent | hnone
    · exact hsent
    · exact absurd hnone hs

/-- Whatever the loop received, the final step returns, and neither the loop
nor the final step wrote a 503 with body "unknown error". -/
theorem finish_no_unknownError (h : multiplexingHandler) (rnd : Nat) (rs : List Response)
    (hreq : ∀ r ∈ rs, r.Request.isSome = true) :
    ∃ w, finish h rnd (afterRecvs h (initState []) rs) = .returned w ∧
      ∀ x ∈ w, ¬ (x.StatusCode = 503 ∧ x.Body = "unknown error") := by
  have hinv := afterRecvs_init_counter h [] rs
  obtain ⟨hRS, hRF⟩ := afterRecvs_init_requests h [] rs hreq
  have hS := afterRecvs_succeeded_status h (initState []) rs (fun _ hx => by cases hx)
  have hF := afterRecvs_init_failed_body h [] rs
  have hW := afterRecvs_w_status h (initState []) rs (fun _ hx => by cases hx)
  have hWno : ∀ x ∈ (afterRecvs h (initState []) rs).w,
      ¬ (x.StatusCode = 503 ∧ x.Body = "unknown error") := by
    intro x hx hc
    have := hW x hx
    omega
  cases hsent : (afterRecvs h (initState []) rs).alreadySent with
  | true =>
    exact ⟨_, finish_alreadySent h rnd _ hRS hRF hinv hsent, hWno⟩
  | false =>
    obtain ⟨r, hr⟩ := decideFinalResponse_isSome h rnd _ _ _ hinv
    refine ⟨_, finish_notSent h rnd _ r hRS hRF hr hsent, ?_⟩
    intro x hx
    rcases List.mem_append.mp hx with hx | hx
    · exact hWno x hx
    · rw [List.mem_singleton.mp hx]
      intro hc
      rcases decideFinalResponse_cases h rnd _ _ _ _ hr with hd | hd | hd | hd
      · rw [hd] at hc
        exact absurd hc.2 (by decide)
      · have := hS r hd
        have h503 : r.StatusCode = 503 := hc.1
        omega
      · have hb : r.Body = "" := hF r hd
        have hb2 : r.Body = "unknown error" := hc.2
        rw [hb] at hb2
        exact absurd hb2 (by decide)
      · rw [hd.1] at hr
        have := (unknownError_state h rnd rs hr).2.2.2
        rw [hsent] at this
        exact absurd this (by decide)

/-- C12: in every run of `ServeHTTP` the handler returns and no response it
wrote is a 503 with body "unknown error"; and whenever the loop is left
through the closed channel and `decideFinalResponse` returns the synthesized
503 "unknown error" on the counter and the two collections the loop built,
the policy is "not all must succeed", both collections are non-empty, a
successful response was already forwarded (`alreadySent` is true) and the
handler returns with only the writes of the loop. -/
theorem unknownError_not_written (h : multiplexingHandler) (env : Env) (sched : Schedule)
    (req : Request)
    (hperm : sched.perm.Perm (List.range (GetTargetAddresses h).length)) :
    (∃ w, ServeHTTP h env sched [] req = .returned w ∧
      ∀ x ∈ w, ¬ (x.StatusCode = 503 ∧ x.Body = "unknown error")) ∧
    (∀ st, mainLoop h (eventsOf sched (responsesOf h env sched req)) (initState [])
        = some (.broke st) →
      decideFinalResponse h sched.rnd st.requestCounter st.successfulResponses
          st.failedResponses = some (newResponse 503 "unknown error") →
      h.allMustSucceed = false ∧ st.successfulResponses ≠ [] ∧ st.failedResponses ≠ [] ∧
        st.alreadySent = true ∧ ServeHTTP h env sched [] req = .returned st.w) := by
  have hlt := perm_lt _ _ hperm
  have hreq := completedOf_request h env sched req
  cases hdl : sched.deadline with
  | some k =>
    constructor
    · refine ⟨_, ServeHTTP_deadline h env sched [] req hlt k hdl, ?_⟩
      intro x hx hc
      rcases List.mem_append.mp hx with hx | hx
      · have := afterRecvs_w_status h (initState []) _ (fun _ hy => by cases hy) x hx
        omega
      · rw [List.mem_singleton.mp hx] at hc
        exact absurd hc.1 (by decide)
    · intro st hloop
      exfalso
      unfold eventsOf at hloop
      simp only [hdl] at hloop
      have hreqk : ∀ r ∈ (completed sched (responsesOf h env sched req)).take k,
          r.Request.isSome = true :=
        fun r hr => hreq r (List.mem_of_mem_take hr)
      rw [mainLoop_recvs h _ _ _ hreqk] at hloop
      simp [mainLoop] at hloop
  | none =>
    have hrun := ServeHTTP_noDeadline h env sched [] req hlt hdl
    constructor
    · rw [hrun]
      exact finish_no_unknownError h sched.rnd _ hreq
    · intro st hloop hdec
      unfold eventsOf at hloop
      simp only [hdl] at hloop
      have hreq1 : ∀ r ∈ completed sched (responsesOf h env sched req),
          r.Request.isSome = true := hreq
      rw [mainLoop_recvs h _ _ _ hreq1] at hloop
      have hst : st = afterRecvs h (initState []) (completedOf h env sched req) := by
        simp only [mainLoop, Option.some.injEq, LoopExit.broke.injEq] at hloop
        exact hloop.symm
      subst hst
      obtain ⟨hams, hs, hf, hsent⟩ := unknownError_state h sched.rnd _ hdec
      obtain ⟨hRS, hRF⟩ := afterRecvs_init_requests h [] _ hreq
      refine ⟨hams, hs, hf, hsent, ?_⟩
      rw [hrun]
      exact finish_alreadySent h sched.rnd _ hRS hRF (afterRecvs_init_counter h [] _) hsent

theorem unknownError_not_written_witness :
    ((∃ w, ServeHTTP (handlerFor false 60 ["ok:80", "err:80"]) envMixed
        ⟨[0, 1], [1, 0], none, 0⟩ [] getRequest = .returned w ∧
      ∀ x ∈ w, ¬ (x.StatusCode = 503 ∧ x.Body = "unknown error")) ∧
    (∀ st, mainLoop (handlerFor false 60 ["ok:80", "err:80"])
          (eventsOf ⟨[0, 1], [1, 0], none, 0⟩
            (responsesOf (handlerFor false 60 ["ok:80", "err:80"]) envMixed
              ⟨[0, 1], [1, 0], none, 0⟩ getRequest))
          (initState [])
        = some (.broke st) →
      decideFinalResponse (handlerFor false 60 ["ok:80", "err:80"]) 0 st.requestCounter
          st.successfulResponses st.failedResponses
        = some (newResponse 503 "unknown error") →
      (handlerFor false 60 ["ok:80", "err:80"]).allMustSucceed = false ∧
        st.successfulResponses ≠ [] ∧ st.failedResponses ≠ [] ∧
        st.alreadySent = true ∧
        ServeHTTP (handlerFor false 60 ["ok:80", "err:80"]) envMixed
          ⟨[0, 1], [1, 0], none, 0⟩ [] getRequest = .returned st.w)) ∧
    (∃ st, mainLoop (handlerFor false 60 ["ok:80", "err:80"])
          (eventsOf ⟨[0, 1], [1, 0], none, 0⟩
            (responsesOf (handlerFor false 60 ["ok:80", "err:80"]) envMixed
              ⟨[0, 1], [1, 0], none, 0⟩ getRequest))
          (initState [])
        = some (.broke st) ∧
      decideFinalResponse (handlerFor false 60 ["ok:80", "err:80"]) 0 st.requestCounter
          st.successfulResponses st.failedResponses
        = some (newResponse 503 "unknown error")) ∧
    ServeHTTP (handlerFor false 60 ["ok:80", "err:80"]) envMixed
        ⟨[0, 1], [1, 0], none, 0⟩ [] getRequest
      = .returned [⟨200, [("Content-Length", ["7"])], "OK 200\n"⟩] :=
  ⟨unknownError_not_written (handlerFor false 60 ["ok:80", "err:80"]) envMixed
      ⟨[0, 1], [1, 0], none, 0⟩ getRequest (by decide),
   ⟨afterRecvs (handlerFor false 60 ["ok:80", "err:80"]) (initState [])
      (completedOf (handlerFor false 60 ["ok:80", "err:80"]) envMixed
        ⟨[0, 1], [1, 0], none, 0⟩ getRequest), by decide, by decide⟩,
   by decide⟩

/-- C13: whenever the total count equals the number of successful plus the
number of failed responses, `decideFinalResponse` returns a response (not
nil), which carries a request when all collected responses do; in the branch
that picks from the successful list that list is not empty, and in the
branches that pick from the failed list that list is not empty; on every loop
state with this invariant the final step of `ServeHTTP` returns without a
panic, and the loop keeps the invariant from its start. Without the
precondition, total count 0 with one failed response and no successful one
gives nil. -/
theorem decideFinalResponse_nonNil (h : multiplexingHandler) (rnd : Nat) (totalCount : Int)
    (succ failed : List Response)
    (hinv : totalCount = (succ.length : Int) + (failed.length : Int)) :
    (∃ r, decideFinalResponse h rnd totalCount succ failed = some r ∧
      ((∀ x ∈ succ, x.Request.isSome = true) → (∀ x ∈ failed, x.Request.isSome = true) →
        r.Request.isSome = true)) ∧
    (¬ ((failed.length : Int) = 0 ∧ (succ.length : Int) = 0) →
      (succ.length : Int) ≥ totalCount → succ ≠ []) ∧
    (¬ ((failed.length : Int) = 0 ∧ (succ.length : Int) = 0) →
      ¬ (succ.length : Int) ≥ totalCount → failed ≠ []) ∧
    (∀ st : LoopState,
      st.requestCounter
        = (st.successfulResponses.length : Int) + (st.failedResponses.length : Int) →
      (∀ x ∈ st.successfulResponses, x.Request.isSome = true) →
      (∀ x ∈ st.failedResponses, x.Request.isSome = true) →
      ∃ w, finish h rnd st = .returned w) ∧
    (∀ (w : ResponseWriter) (rs : List Response),
      (afterRecvs h (initState w) rs).requestCounter
        = ((afterRecvs h (initState w) rs).successfulResponses.length : Int)
          + ((afterRecvs h (initState w) rs).failedResponses.length : Int)) ∧
    (∀ r : Response, decideFinalResponse h rnd 0 [] [r] = none) := by
  refine ⟨?_, ?_, ?_, ?_, afterRecvs_init_counter h, ?_⟩
  · obtain ⟨r, hr⟩ := decideFinalResponse_isSome h rnd totalCount succ failed hinv
    exact ⟨r, hr, fun hS hF => decideFinalResponse_request h rnd _ _ _ r hS hF hr⟩
  · intro h0 h1 hnil
    subst hnil
    simp only [List.length_nil, Nat.cast_zero, and_true, true_and] at h0 h1 hinv
    omega
  · intro h0 h1 hnil
    subst hnil
    simp only [List.length_nil, Nat.cast_zero, and_true, true_and] at h0 h1 hinv
    omega
  · intro st hst hS hF
    cases hsent : st.alreadySent with
    | true => exact ⟨_, finish_alreadySent h rnd st hS hF hst hsent⟩
    | false =>
      obtain ⟨r, hr⟩ := decideFinalResponse_isSome h rnd _ _ _ hst
      exact ⟨_, finish_notSent h rnd st r hS hF hr hsent⟩
  · intro r
    unfold decideFinalResponse
    simp only [List.length_singleton, List.length_nil, Nat.cast_zero, Nat.cast_one]
    rw [if_neg (by omega), if_pos (by omega)]
    rfl

theorem decideFinalResponse_nonNil_witness :
    (∃ r, decideFinalResponse (handlerFor false 60 ["ok:80", "err:80"]) 3 2
          [okResponse getRequest] [drained (errResponse getRequest)] = some r ∧
      ((∀ x ∈ [okResponse getRequest], x.Request.isSome = true) →
        (∀ x ∈ [drained (errResponse getRequest)], x.Request.isSome = true) →
        r.Request.isSome = true)) ∧
    (∀ r : Response,
      decideFinalResponse (handlerFor false 60 ["ok:80", "err:80"]) 3 0 [] [r] = none) :=
  ⟨(decideFinalResponse_nonNil (handlerFor false 60 ["ok:80", "err:80"]) 3 2
      [okResponse getRequest] [drained (errResponse getRequest)] (by decide)).1,
   (decideFinalResponse_nonNil (handlerFor false 60 ["ok:80", "err:80"]) 3 2
      [okResponse getRequest] [drained (errResponse getRequest)] (by decide)).2.2.2.2.2⟩

end Broadcast
